import Mathlib

/-!
# NebulaVM-Deobfuscator: verification of spec claims

A shallow embedding of the core of the NebulaVM deobfuscator (string-table
decoder, bytecode disassembler, CFG builder, control-flow reconstructor and
the symbolic-stack code generator), together with theorems settling the
claims of the specification against this embedding.

Modelling conventions, used throughout:
* JavaScript byte vectors (`Uint8Array` / arrays of bytes) are `List Nat`;
  a `Uint8Array` stores values reduced mod 256, which the accessors below
  reproduce.
* JavaScript strings manipulated by the lifter are Lean `String`s; the
  string-table decoder, whose whole point is 16-bit code-unit arithmetic,
  works on `List Nat` of UTF-16 code units instead.
* `x || default` on strings follows JavaScript truthiness: the empty string
  is falsy and is replaced by the default.
* Out-of-range indexed reads yield `undefined` in JavaScript; each use site
  is modelled by the value `undefined` coerces to there (0 in `|`-arithmetic
  and `Uint8Array` stores, `false` in `=== 1` comparisons, fallback in
  `x || y`).
-/

namespace NVM

/-! ## Prelude: decimal representation of naturals

`Nat.repr` has no injectivity lemma in the libraries we build on, but the
variable-naming claims need that distinct counters give distinct `var_N`
names, so we prove it here from `Nat.toDigitsCore`.
-/

/-- Structural version of the fuel-based `Nat.toDigitsCore` at base 10. -/
def natChars (n : Nat) : List Char :=
  if h : n / 10 = 0 then [Nat.digitChar (n % 10)]
  else natChars (n / 10) ++ [Nat.digitChar (n % 10)]
termination_by n
decreasing_by
  exact Nat.div_lt_self (by omega) (by omega)

theorem natChars_ne_nil (n : Nat) : natChars n ≠ [] := by
  rw [natChars]
  split <;> simp

theorem toDigitsCore_eq_natChars (fuel n : Nat) (acc : List Char) (h : n < fuel) :
    Nat.toDigitsCore 10 fuel n acc = natChars n ++ acc := by
  induction fuel generalizing n acc with
  | zero => omega
  | succ f ih =>
    rw [Nat.toDigitsCore, natChars]
    by_cases h0 : n / 10 = 0
    · simp [h0]
    · have hdiv : n / 10 < n := Nat.div_lt_self (by omega) (by omega)
      simp only [h0, if_false, dif_neg h0]
      rw [ih (n / 10) _ (by omega)]
      simp

theorem repr_eq_natChars (n : Nat) : (Nat.repr n).data = natChars n := by
  show (List.asString (Nat.toDigits 10 n)).data = natChars n
  rw [Nat.toDigits, toDigitsCore_eq_natChars (n + 1) n [] (by omega)]
  simp [List.asString]

/-- Value of a decimal digit character. -/
def digitVal (c : Char) : Nat := c.toNat - 48

theorem digitVal_digitChar : ∀ d, d < 10 → digitVal (Nat.digitChar d) = d := by
  decide

theorem digitChar_ne_underscore : ∀ d, d < 10 → Nat.digitChar d ≠ Char.ofNat 95 := by
  decide

/-- Parse a digit string back into a natural number. -/
def parseChars (a : Nat) (l : List Char) : Nat :=
  l.foldl (fun x c => x * 10 + digitVal c) a

theorem parseChars_natChars (n : Nat) : ∀ a, parseChars a (natChars n) =
    a * 10 ^ (natChars n).length + n := by
  induction n using Nat.strong_induction_on with
  | _ n ih =>
    intro a
    rw [natChars]
    by_cases h0 : n / 10 = 0
    · have hn : n < 10 := by omega
      simp [h0, parseChars, digitVal_digitChar (n % 10) (by omega), List.length]
      omega
    · have hdiv : n / 10 < n := Nat.div_lt_self (by omega) (by omega)
      simp only [dif_neg h0]
      unfold parseChars
      rw [List.foldl_append]
      have := ih (n / 10) hdiv a
      unfold parseChars at this
      rw [this]
      simp [digitVal_digitChar (n % 10) (by omega), pow_succ]
      ring_nf
      omega

theorem natChars_injective : Function.Injective natChars := by
  intro m n h
  have hm := parseChars_natChars m 0
  have hn := parseChars_natChars n 0
  rw [h] at hm
  simp at hm hn
  exact hm.symm.trans hn

theorem natRepr_injective : Function.Injective Nat.repr := by
  intro m n h
  apply natChars_injective
  rw [← repr_eq_natChars, ← repr_eq_natChars, h]

theorem natChars_no_underscore (n : Nat) :
    ∀ c ∈ natChars n, c ≠ Char.ofNat 95 := by
  induction n using Nat.strong_induction_on with
  | _ n ih =>
    intro c hc
    rw [natChars] at hc
    by_cases h0 : n / 10 = 0
    · simp [h0] at hc
      subst hc
      exact digitChar_ne_underscore (n % 10) (by omega)
    · have hdiv : n / 10 < n := Nat.div_lt_self (by omega) (by omega)
      simp only [dif_neg h0, List.mem_append, List.mem_singleton] at hc
      rcases hc with hc | hc
      · exact ih (n / 10) hdiv c hc
      · subst hc
        exact digitChar_ne_underscore (n % 10) (by omega)

theorem repr_no_underscore (n : Nat) :
    ∀ c ∈ (Nat.repr n).data, c ≠ Char.ofNat 95 := by
  rw [repr_eq_natChars]
  exact natChars_no_underscore n

/-- Splitting a list at a separator character that occurs in neither side. -/
theorem append_sep_inj {A B C D : List Char} (sep : Char)
    (hA : ∀ c ∈ A, c ≠ sep) (hC : ∀ c ∈ C, c ≠ sep)
    (h : A ++ sep :: B = C ++ sep :: D) : A = C ∧ B = D := by
  induction A generalizing C with
  | nil =>
    cases C with
    | nil => simpa using h
    | cons c cs =>
      simp at h
      exact absurd h.1.symm (hC c (by simp))
  | cons a as ih =>
    cases C with
    | nil =>
      simp at h
      exact absurd h.1 (hA a (by simp))
    | cons c cs =>
      simp at h
      obtain ⟨rfl, h2⟩ := h
      have := ih (fun x hx => hA x (by simp [hx])) (fun x hx => hC x (by simp [hx])) h2
      simp [this.1, this.2]

/-! ## String-table decoder (`src/runtime/bytecodeReader.js`, `decodeStringsBytes`)

The decoder walks a byte vector of records `{length:u32LE, code units:u16LE}`,
XOR-ing each 16-bit code unit with 0x80.  A JavaScript string is a sequence of
16-bit code units, modelled here as `List Nat`.

Fidelity notes:
* the JavaScript `(b3 & 0xFF) << 24` can make the assembled 32-bit length
  negative (when `b3 ≥ 0x80`); the source breaks on `length < 0` as well as
  on `length > 100000`.  In the `Nat` model the assembled value is
  `< 2^32`, and every value that would be negative in 32-bit arithmetic is
  `≥ 2^31 > 100000`, so the single test `length > 100000` is an exact
  translation of `length < 0 || length > 100000`;
* `i + length * 2 > stringsBytes.length` is the remaining-buffer check,
  here `2 * length > rest.length`;
* fewer than 4 remaining bytes (`i + 4 > stringsBytes.length`) stops the
  loop, which the pattern match reproduces.
-/

/-- One 16-bit code unit from two bytes, XOR-ed with 0x80. -/
def decodeUnits : List Nat → List Nat
  | lo :: hi :: rest => ((lo % 256 + (hi % 256) * 256) ^^^ 128) :: decodeUnits rest
  | _ => []

/-- The 32-bit record length assembled from four little-endian bytes (the
single `length` local of the source, hoisted so proofs can rewrite it). -/
def recLen (b0 b1 b2 b3 : Nat) : Nat :=
  b0 % 256 + (b1 % 256) * 256 + (b2 % 256) * 65536 + (b3 % 256) * 16777216

/-- `decodeStringsBytes` from `src/runtime/bytecodeReader.js`. -/
def decodeStringsBytes : List Nat → List (List Nat)
  | b0 :: b1 :: b2 :: b3 :: rest =>
    if recLen b0 b1 b2 b3 > 100000 then []
    else if 2 * recLen b0 b1 b2 b3 > rest.length then []
    else decodeUnits (rest.take (2 * recLen b0 b1 b2 b3)) ::
      decodeStringsBytes (rest.drop (2 * recLen b0 b1 b2 b3))
  | _ => []
termination_by l => l.length
decreasing_by
  simp only [List.length_cons, List.length_drop]
  omega

/-- The trivial encoder described by the specification: `u32LE` length,
then each UTF-16 code unit XOR-ed with 0x80 as `u16LE`.  (This definition
follows the specification's words; it is the left inverse the round-trip
claims are about.) -/
def u32le (n : Nat) : List Nat :=
  [n % 256, n / 256 % 256, n / 65536 % 256, n / 16777216 % 256]

def encodeUnit (u : Nat) : List Nat :=
  [(u ^^^ 128) % 256, (u ^^^ 128) / 256]

def encodeUnits : List Nat → List Nat
  | [] => []
  | u :: rest => encodeUnit u ++ encodeUnits rest

def encodeString (s : List Nat) : List Nat :=
  u32le s.length ++ encodeUnits s

def encodeStrings : List (List Nat) → List Nat
  | [] => []
  | s :: rest => encodeString s ++ encodeStrings rest

theorem decodeStringsBytes_nil : decodeStringsBytes [] = [] := by
  rw [decodeStringsBytes]
  intro b0 b1 b2 b3 rest h
  exact List.noConfusion h

theorem recLen_u32le (n : Nat) (h : n < 4294967296) :
    recLen (n % 256) (n / 256 % 256) (n / 65536 % 256) (n / 16777216 % 256) = n := by
  unfold recLen
  omega

theorem decodeUnits_encodeUnits (s : List Nat) (h : ∀ u ∈ s, u < 65536) :
    decodeUnits (encodeUnits s) = s := by
  induction s with
  | nil => rfl
  | cons u rest ih =>
    have hu : u < 65536 := h u (by simp)
    have hv : u ^^^ 128 < 65536 := by
      have h1 : u < 2 ^ 16 := by norm_num [hu]
      have h2 : (128 : Nat) < 2 ^ 16 := by norm_num
      have := Nat.xor_lt_two_pow h1 h2
      norm_num at this
      exact this
    have h3 : (u ^^^ 128) % 256 % 256 + ((u ^^^ 128) / 256 % 256) * 256 = u ^^^ 128 := by
      omega
    simp only [encodeUnits, encodeUnit, List.append_eq, List.cons_append,
      List.nil_append, decodeUnits, List.append_nil]
    rw [ih (fun x hx => h x (by simp [hx]))]
    rw [h3, Nat.xor_assoc]
    simp

theorem encodeUnits_length (s : List Nat) :
    (encodeUnits s).length = 2 * s.length := by
  induction s with
  | nil => rfl
  | cons u rest ih =>
    simp [encodeUnits, encodeUnit, ih]
    omega

/-- Master round-trip lemma: decoding an encoded record list followed by any
tail decodes the records then continues into the tail. -/
theorem decode_encode_append (ss : List (List Nat)) (tail : List Nat)
    (h : ∀ s ∈ ss, s.length ≤ 100000 ∧ ∀ u ∈ s, u < 65536) :
    decodeStringsBytes (encodeStrings ss ++ tail) =
      ss ++ decodeStringsBytes tail := by
  induction ss with
  | nil => simp [encodeStrings]
  | cons s rest ih =>
    obtain ⟨hlen, hunits⟩ := h s (by simp)
    have hrest : ∀ x ∈ rest, x.length ≤ 100000 ∧ ∀ u ∈ x, u < 65536 :=
      fun x hx => h x (by simp [hx])
    have hbody := encodeUnits_length s
    show decodeStringsBytes ((encodeString s ++ encodeStrings rest) ++ tail) = _
    rw [List.append_assoc]
    simp only [encodeString, u32le, List.append_assoc, List.cons_append,
      List.nil_append]
    rw [decodeStringsBytes]
    rw [recLen_u32le s.length (by omega)]
    rw [if_neg (by omega)]
    have hlen2 : (encodeUnits s ++ (encodeStrings rest ++ tail)).length =
        2 * s.length + (encodeStrings rest ++ tail).length := by
      simp [hbody]
    rw [if_neg (by omega)]
    have htake : (encodeUnits s ++ (encodeStrings rest ++ tail)).take
        (2 * s.length) = encodeUnits s := by
      rw [← hbody, List.take_left]
    have hdrop : (encodeUnits s ++ (encodeStrings rest ++ tail)).drop
        (2 * s.length) = encodeStrings rest ++ tail := by
      rw [← hbody, List.drop_left]
    rw [htake, hdrop, decodeUnits_encodeUnits s hunits, ih hrest]

/-- C7 (as stated) is false: a string of 100001 code units trips the
decoder's undocumented length cap, so the decoder returns `[]` rather than
the encoded list. -/
theorem c7_counterexample :
    decodeStringsBytes (encodeStrings [List.replicate 100001 97]) ≠
      [List.replicate 100001 97] := by
  have hlen : (List.replicate 100001 (97 : Nat)).length = 100001 := by
    rw [List.length_replicate]
  show decodeStringsBytes (encodeString (List.replicate 100001 97) ++ encodeStrings []) ≠ _
  simp only [encodeStrings, List.append_nil, encodeString, hlen]
  have hu : u32le 100001 = [161, 134, 1, 0] := by decide
  rw [hu]
  simp only [List.cons_append, List.nil_append]
  rw [decodeStringsBytes]
  rw [if_pos (by decide)]
  exact Ne.symm (List.cons_ne_nil _ _)

/-- C7 amended: the string-table decoder inverts the trivial encoder for
every list of strings whose members each have at most 100000 UTF-16 code
units (each code unit being a 16-bit value). -/
theorem c7_decoder_inverts_encoder (ss : List (List Nat))
    (h : ∀ s ∈ ss, s.length ≤ 100000 ∧ ∀ u ∈ s, u < 65536) :
    decodeStringsBytes (encodeStrings ss) = ss := by
  have h2 := decode_encode_append ss [] h
  rw [List.append_nil, decodeStringsBytes_nil, List.append_nil] at h2
  exact h2

theorem c7_decoder_inverts_encoder_witness :
    decodeStringsBytes (encodeStrings [[104, 105], [65535]]) = [[104, 105], [65535]] :=
  c7_decoder_inverts_encoder [[104, 105], [65535]] (by decide)

/-- C9: the decoder stops (returning the strings decoded so far) as soon as a
record's length field exceeds 100000, even when the remaining buffer is large
enough to hold that record. -/
theorem c9_length_cap (ss : List (List Nat)) (L : Nat) (rest : List Nat)
    (h : ∀ s ∈ ss, s.length ≤ 100000 ∧ ∀ u ∈ s, u < 65536)
    (hL : 100000 < L) (hL2 : L < 4294967296)
    (hbuf : 2 * L ≤ rest.length) :
    decodeStringsBytes (encodeStrings ss ++ (u32le L ++ rest)) = ss := by
  rw [decode_encode_append ss (u32le L ++ rest) h]
  have : decodeStringsBytes (u32le L ++ rest) = [] := by
    simp only [u32le, List.cons_append, List.nil_append]
    rw [decodeStringsBytes]
    rw [recLen_u32le L (by omega)]
    rw [if_pos (by omega)]
  rw [this, List.append_nil]

theorem c9_length_cap_witness :
    decodeStringsBytes (encodeStrings [[5]] ++ (u32le 100001 ++ List.replicate 200002 0)) =
      [[5]] :=
  c9_length_cap [[5]] 100001 (List.replicate 200002 0) (by decide) (by norm_num)
    (by norm_num) (by rw [List.length_replicate])

/-! ## Variable naming (`src/lib/extractor.js`, `CodeGenerator.getVarName`)

`getVarName(scopeId, varId)` first normalizes an undefined/null/too-large
scope id to 0, then returns a fresh `var_unknown_N` for an undefined/null or
too-large slot (without consulting the memo table), and otherwise memoizes a
`var_N` name under the key `` `${scopeId}_${varId}` ``.  `undefined` and
`null` inputs are both modelled as `none`; JavaScript's `Map` (first
insertion wins, `set` only called when the key is absent) is an association
list searched from the front.
-/

structure VarState where
  varCounter : Nat
  scopeVarNames : List (String × String)
deriving DecidableEq, Repr

/-- `Map.get`/`Map.has` of `scopeVarNames`. -/
def mapLookup : List (String × String) → String → Option String
  | [], _ => none
  | (k, v) :: rest, key => if k = key then some v else mapLookup rest key

/-- The scope-id normalization at the top of `getVarName`. -/
def normScope (scopeId : Option Int) : Int :=
  match scopeId with
  | none => 0
  | some n => if n > 1000 then 0 else n

/-- `CodeGenerator.getVarName` from `src/lib/extractor.js`. -/
def getVarName (scopeId varId : Option Int) (st : VarState) : String × VarState :=
  let s := normScope scopeId
  match varId with
  | none => ("var_unknown_" ++ Nat.repr st.varCounter,
      ⟨st.varCounter + 1, st.scopeVarNames⟩)
  | some v =>
    if v > 10000 then
      ("var_unknown_" ++ Nat.repr st.varCounter,
        ⟨st.varCounter + 1, st.scopeVarNames⟩)
    else
      let key := Int.repr s ++ "_" ++ Int.repr v
      match mapLookup st.scopeVarNames key with
      | some name => (name, st)
      | none =>
        let name := "var_" ++ Nat.repr st.varCounter
        (name, ⟨st.varCounter + 1, st.scopeVarNames ++ [(key, name)]⟩)

/-! ### String helper lemmas for variable names and memo keys -/

theorem natChars_isDigit (n : Nat) : ∀ c ∈ natChars n, c.isDigit := by
  induction n using Nat.strong_induction_on with
  | _ n ih =>
    intro c hc
    rw [natChars] at hc
    have hd : ∀ d, d < 10 → (Nat.digitChar d).isDigit := by decide
    by_cases h0 : n / 10 = 0
    · simp [h0] at hc
      subst hc
      exact hd (n % 10) (by omega)
    · have hdiv : n / 10 < n := Nat.div_lt_self (by omega) (by omega)
      simp only [dif_neg h0, List.mem_append, List.mem_singleton] at hc
      rcases hc with hc | hc
      · exact ih (n / 10) hdiv c hc
      · subst hc
        exact hd (n % 10) (by omega)

theorem intRepr_data (i : Int) : (Int.repr i).data =
    match i with
    | .ofNat m => natChars m
    | .negSucc m => Char.ofNat 45 :: natChars (m + 1) := by
  match i with
  | .ofNat m => simpa [Int.repr] using repr_eq_natChars m
  | .negSucc m =>
    show (("-" : String) ++ Nat.repr (m + 1)).data = _
    rw [String.data_append, repr_eq_natChars]
    rfl

theorem intRepr_no_underscore (i : Int) :
    ∀ c ∈ (Int.repr i).data, c ≠ Char.ofNat 95 := by
  rw [intRepr_data]
  match i with
  | .ofNat m =>
    intro c hc
    have := natChars_isDigit m c hc
    intro h
    subst h
    simp [Char.isDigit] at this
  | .negSucc m =>
    intro c hc
    simp only [List.mem_cons] at hc
    rcases hc with rfl | hc
    · decide
    · have := natChars_isDigit (m + 1) c hc
      intro h
      subst h
      simp [Char.isDigit] at this

theorem intRepr_injective : Function.Injective Int.repr := by
  intro a b h
  have hdata := congrArg String.data h
  rw [intRepr_data, intRepr_data] at hdata
  match a, b with
  | .ofNat m, .ofNat n =>
    simp only at hdata
    exact congrArg Int.ofNat (natChars_injective hdata)
  | .ofNat m, .negSucc n =>
    exfalso
    simp only at hdata
    have hmem : Char.ofNat 45 ∈ natChars m := by
      rw [hdata]
      simp
    have := natChars_isDigit m _ hmem
    simp [Char.isDigit] at this
  | .negSucc m, .ofNat n =>
    exfalso
    simp only at hdata
    have hmem : Char.ofNat 45 ∈ natChars n := by
      rw [← hdata]
      simp
    have := natChars_isDigit n _ hmem
    simp [Char.isDigit] at this
  | .negSucc m, .negSucc n =>
    simp only [List.cons.injEq] at hdata
    have h2 := natChars_injective hdata.2
    have hmn : m = n := by omega
    rw [hmn]

theorem string_ofData (s : String) : String.mk s.data = s := rfl

theorem string_eq_of_data {s t : String} (h : s.data = t.data) : s = t := by
  rw [← string_ofData s, ← string_ofData t]
  exact congrArg String.mk h

theorem string_append_cancel_left (p s t : String) (h : p ++ s = p ++ t) : s = t := by
  have hdata := congrArg String.data h
  rw [String.data_append, String.data_append] at hdata
  exact string_eq_of_data (List.append_cancel_left hdata)

/-- The memo key `` `${s}_${v}` `` determines the (normalized) pair. -/
theorem varKey_inj (s v t w : Int)
    (h : Int.repr s ++ "_" ++ Int.repr v = Int.repr t ++ "_" ++ Int.repr w) :
    s = t ∧ v = w := by
  have hdata := congrArg String.data h
  have hu : ("_" : String).data = [Char.ofNat 95] := by decide
  rw [String.data_append, String.data_append, String.data_append,
    String.data_append, hu] at hdata
  rw [List.append_assoc, List.append_assoc] at hdata
  simp only [List.cons_append, List.nil_append] at hdata
  have hsp := append_sep_inj (Char.ofNat 95) (intRepr_no_underscore s)
    (intRepr_no_underscore t) hdata
  exact ⟨intRepr_injective (string_eq_of_data hsp.1),
    intRepr_injective (string_eq_of_data hsp.2)⟩

theorem varName_inj (i j : Nat) (h : "var_" ++ Nat.repr i = "var_" ++ Nat.repr j) :
    i = j :=
  natRepr_injective (string_append_cancel_left _ _ _ h)

theorem unknownName_inj (i j : Nat)
    (h : "var_unknown_" ++ Nat.repr i = "var_unknown_" ++ Nat.repr j) : i = j :=
  natRepr_injective (string_append_cancel_left _ _ _ h)

/-! ### Memo-table invariant -/

/-- Every memoized name is `var_i` for some counter value `i` already spent,
and no name is stored twice. -/
def VarInv (st : VarState) : Prop :=
  (∀ p ∈ st.scopeVarNames, ∃ i, i < st.varCounter ∧ p.2 = "var_" ++ Nat.repr i) ∧
  (st.scopeVarNames.map Prod.snd).Nodup

theorem varInv_empty : VarInv ⟨0, []⟩ := by
  constructor
  · intro p hp
    simp at hp
  · simp

theorem mapLookup_mem {l : List (String × String)} {k v : String}
    (h : mapLookup l k = some v) : (k, v) ∈ l := by
  induction l with
  | nil => simp [mapLookup] at h
  | cons p rest ih =>
    obtain ⟨pk, pv⟩ := p
    simp only [mapLookup] at h
    by_cases hk : pk = k
    · simp [hk] at h
      simp [hk, h]
    · simp [hk] at h
      simp [ih h]

theorem mapLookup_append_of_none {l : List (String × String)} {k v : String}
    (h : mapLookup l k = none) :
    mapLookup (l ++ [(k, v)]) k = some v := by
  induction l with
  | nil => simp [mapLookup]
  | cons p rest ih =>
    obtain ⟨pk, pv⟩ := p
    simp only [mapLookup] at h ⊢
    by_cases hk : pk = k
    · simp [hk] at h
    · simp [hk] at h ⊢
      exact ih h

theorem mapLookup_append_single_ne {l : List (String × String)} {k k2 v : String}
    (h : k2 ≠ k) :
    mapLookup (l ++ [(k, v)]) k2 = mapLookup l k2 := by
  induction l with
  | nil =>
    simp only [List.nil_append, mapLookup]
    rw [if_neg (fun hh => h hh.symm)]
  | cons p rest ih =>
    obtain ⟨pk, pv⟩ := p
    simp only [mapLookup, List.cons_append]
    by_cases hk : pk = k2
    · simp [hk]
    · simp [hk, ih]

/-- With `Nodup` values, a stored name determines its key. -/
theorem mapLookup_value_determines_key {l : List (String × String)} {k1 k2 v : String}
    (hnodup : (l.map Prod.snd).Nodup)
    (h1 : mapLookup l k1 = some v) (h2 : mapLookup l k2 = some v) : k1 = k2 := by
  induction l with
  | nil => simp [mapLookup] at h1
  | cons p rest ih =>
    obtain ⟨pk, pv⟩ := p
    simp only [List.map_cons, List.nodup_cons] at hnodup
    simp only [mapLookup] at h1 h2
    by_cases ha : pk = k1 <;> by_cases hb : pk = k2
    · exact ha.symm.trans hb
    · exfalso
      simp [ha] at h1
      simp [hb] at h2
      exact hnodup.1 (by
        rw [h1]
        have := mapLookup_mem h2
        exact List.mem_map_of_mem Prod.snd this)
    · exfalso
      simp [hb] at h2
      simp [ha] at h1
      exact hnodup.1 (by
        rw [h2]
        have := mapLookup_mem h1
        exact List.mem_map_of_mem Prod.snd this)
    · simp [ha] at h1
      simp [hb] at h2
      exact ih hnodup.2 h1 h2

theorem getVarName_inv (a b : Option Int) (st : VarState) (h : VarInv st) :
    VarInv (getVarName a b st).2 := by
  obtain ⟨hvals, hnodup⟩ := h
  have hmono : ∀ (m : List (String × String)),
      (∀ p ∈ m, ∃ i, i < st.varCounter ∧ p.2 = "var_" ++ Nat.repr i) →
      ∀ p ∈ m, ∃ i, i < st.varCounter + 1 ∧ p.2 = "var_" ++ Nat.repr i :=
    fun m hm p hp => (hm p hp).imp (fun i hi => ⟨by omega, hi.2⟩)
  cases b with
  | none =>
    simp only [getVarName]
    exact ⟨hmono _ hvals, hnodup⟩
  | some v =>
    simp only [getVarName]
    by_cases hv : v > 10000
    · simp only [if_pos hv]
      exact ⟨hmono _ hvals, hnodup⟩
    · simp only [if_neg hv]
      rcases hlk : mapLookup st.scopeVarNames
          (Int.repr (normScope a) ++ "_" ++ Int.repr v) with _ | name
      · simp only [hlk]
        constructor
        · intro p hp
          simp only [List.mem_append, List.mem_singleton] at hp
          rcases hp with hp | hp
          · exact hmono _ hvals p hp
          · subst hp
            exact ⟨st.varCounter, by show st.varCounter < st.varCounter + 1; omega, rfl⟩
        · rw [List.map_append, List.nodup_append]
          refine ⟨hnodup, by simp, ?_⟩
          intro x hx
          simp only [List.map_cons, List.map_nil, List.mem_singleton]
          intro hx2
          obtain ⟨p, hp, hpx⟩ := List.mem_map.mp hx
          obtain ⟨i, hi, hp2⟩ := hvals p hp
          rw [← hpx, hp2] at hx2
          exact absurd (varName_inj i st.varCounter hx2) (by omega)
      · simp only [hlk]
        exact ⟨hvals, hnodup⟩

/-- C10 (as stated) is false: two distinct in-range pairs that differ only in
an out-of-range scope id (here `(1001, 5)` and `(0, 5)`, both with
`varSlot = 5 ≤ 10000`) are normalized onto the same memo key and therefore
receive the *same* `var_N` name. -/
theorem c10_counterexample :
    ((1001 : Int), (5 : Int)) ≠ ((0 : Int), (5 : Int)) ∧
    (getVarName (some 0) (some 5) (getVarName (some 1001) (some 5) ⟨0, []⟩).2).1 =
      (getVarName (some 1001) (some 5) ⟨0, []⟩).1 := by
  constructor
  · decide
  · decide

/-- C10 amended.  Over any memo state satisfying the table invariant:
(1) `getVarName` memoizes in-range slots — calling it again with the same
arguments returns the same name and leaves the state unchanged;
(2) two in-range calls whose `(scopeId, varSlot)` pairs are distinct *after
scope normalization* (undefined/null/`> 1000` scope ids collapse to `0`)
return distinct names;
(3) a null/undefined or `> 10000` slot immediately mints a fresh
`var_unknown_N` without consulting the memo table, so repeating the very same
out-of-range call yields a different name. -/
theorem c10_getVarName_behavior (st : VarState) (hinv : VarInv st)
    (a b : Option Int) (v w : Int) (hv : v ≤ 10000) (hw : w ≤ 10000) :
    (getVarName a (some v) ((getVarName a (some v) st).2) =
      ((getVarName a (some v) st).1, (getVarName a (some v) st).2))
    ∧ ((normScope a, v) ≠ (normScope b, w) →
        (getVarName b (some w) ((getVarName a (some v) st).2)).1 ≠
          (getVarName a (some v) st).1)
    ∧ (∀ u : Option Int, (u = none ∨ ∃ z, u = some z ∧ z > 10000) →
        getVarName a u st = ("var_unknown_" ++ Nat.repr st.varCounter,
          ⟨st.varCounter + 1, st.scopeVarNames⟩) ∧
        (getVarName a u ((getVarName a u st).2)).1 ≠ (getVarName a u st).1) := by
  obtain ⟨hvals, hnodup⟩ := hinv
  have hv10 : ¬ v > 10000 := by omega
  have hw10 : ¬ w > 10000 := by omega
  refine ⟨?_, ?_, ?_⟩
  · -- memoization
    simp only [getVarName, if_neg hv10]
    rcases hlk : mapLookup st.scopeVarNames
        (Int.repr (normScope a) ++ "_" ++ Int.repr v) with _ | name
    · simp only [hlk, mapLookup_append_of_none hlk]
    · simp only [hlk]
  · -- distinct normalized pairs give distinct names
    intro hne
    have hkey : Int.repr (normScope a) ++ "_" ++ Int.repr v ≠
        Int.repr (normScope b) ++ "_" ++ Int.repr w := by
      intro hk
      obtain ⟨h1, h2⟩ := varKey_inj _ _ _ _ hk
      exact hne (by rw [h1, h2])
    simp only [getVarName, if_neg hv10, if_neg hw10]
    rcases hlk : mapLookup st.scopeVarNames
        (Int.repr (normScope a) ++ "_" ++ Int.repr v) with _ | name
    · -- first call minted a fresh var_N and appended it
      simp only [hlk]
      rw [mapLookup_append_single_ne (fun hh => hkey hh.symm)]
      rcases hlk2 : mapLookup st.scopeVarNames
          (Int.repr (normScope b) ++ "_" ++ Int.repr w) with _ | name2
      · -- second also fresh: counters differ
        simp only
        intro hcontra
        exact absurd (varName_inj _ _ hcontra) (by omega)
      · -- second hits an older entry whose counter is below varCounter
        simp only
        obtain ⟨i, hi, hval⟩ := hvals _ (mapLookup_mem hlk2)
        simp only at hval
        rw [hval]
        intro hcontra
        exact absurd (varName_inj _ _ hcontra) (by omega)
    · -- first call hit the memo table; state unchanged
      simp only [hlk]
      rcases hlk2 : mapLookup st.scopeVarNames
          (Int.repr (normScope b) ++ "_" ++ Int.repr w) with _ | name2
      · -- second is fresh: its counter exceeds every stored one
        simp only
        obtain ⟨i, hi, hval⟩ := hvals _ (mapLookup_mem hlk)
        simp only at hval
        rw [hval]
        intro hcontra
        exact absurd (varName_inj _ _ hcontra.symm) (by omega)
      · -- both hit: Nodup values force distinct names for distinct keys
        simp only
        intro hcontra
        exact hkey ((mapLookup_value_determines_key hnodup hlk2 (hcontra ▸ hlk)).symm)
  · -- out-of-range slots mint fresh names, bypassing the memo table
    intro u hu
    have hstep : getVarName a u st = ("var_unknown_" ++ Nat.repr st.varCounter,
        ⟨st.varCounter + 1, st.scopeVarNames⟩) := by
      rcases hu with rfl | ⟨z, rfl, hz⟩
      · simp only [getVarName]
      · simp only [getVarName, if_pos hz]
    have hstep2 : getVarName a u (⟨st.varCounter + 1, st.scopeVarNames⟩ : VarState) =
        ("var_unknown_" ++ Nat.repr (st.varCounter + 1),
          ⟨st.varCounter + 2, st.scopeVarNames⟩) := by
      rcases hu with rfl | ⟨z, rfl, hz⟩
      · simp only [getVarName]
      · simp only [getVarName, if_pos hz]
    refine ⟨hstep, ?_⟩
    rw [hstep, hstep2]
    simp only
    intro hcontra
    exact absurd (unknownName_inj _ _ hcontra) (by omega)

theorem c10_getVarName_behavior_witness :
    (getVarName (some 1) (some 2) ((getVarName (some 1) (some 2) ⟨0, []⟩).2) =
      ((getVarName (some 1) (some 2) ⟨0, []⟩).1, (getVarName (some 1) (some 2) ⟨0, []⟩).2))
    ∧ ((normScope (some 1), (2 : Int)) ≠ (normScope (some 3), (4 : Int)) →
        (getVarName (some 3) (some 4) ((getVarName (some 1) (some 2) ⟨0, []⟩).2)).1 ≠
          (getVarName (some 1) (some 2) ⟨0, []⟩).1)
    ∧ (∀ u : Option Int, (u = none ∨ ∃ z, u = some z ∧ z > 10000) →
        getVarName (some 1) u ⟨0, []⟩ = ("var_unknown_" ++ Nat.repr 0, ⟨1, []⟩) ∧
        (getVarName (some 1) u ((getVarName (some 1) u ⟨0, []⟩).2)).1 ≠
          (getVarName (some 1) u ⟨0, []⟩).1) :=
  c10_getVarName_behavior ⟨0, []⟩ varInv_empty (some 1) (some 3) 2 4
    (by norm_num) (by norm_num)

/-! ## Data model: instructions and the disassembler (`src/lib/disassembler.js`)

Instruction operands carry JavaScript values of several runtime types; `JVal`
is their tagged union.  A `STACK_PUSH_DOUBLE` operand is an IEEE-754 double;
floating point is outside the embedding, so the eight raw little-endian bytes
are kept instead (no claim inspects a double's numeric value).
-/

inductive NebulaVersion where
  | V1_LEGACY
  | V2_CURRENT
deriving DecidableEq, Repr

inductive JVal where
  | num (n : Int)
  | boolv (b : Bool)
  | str (s : String)
  | dbl (bytes : List Nat)
deriving DecidableEq, Repr

structure JArg where
  type : String
  value : JVal
deriving DecidableEq, Repr

structure Instr where
  addr : Nat
  opcode : Nat
  opName : String
  args : List JArg
  stringValue : Option String := none
  fnBody : Option (List Nat) := none
  patternValue : Option String := none
  flagsValue : Option String := none
  detectedVersion : Option NebulaVersion := none
  error : Option String := none
deriving DecidableEq, Repr

/-- The canonical opcode table of `src/lib/opcodes.js` (`OperationCode`). -/
def operationCode : List (String × Nat) :=
  [("STACK_PUSH_STRING", 0), ("STACK_PUSH_DWORD", 1), ("STACK_PUSH_DOUBLE", 2),
   ("STACK_PUSH_BOOLEAN", 3), ("STACK_PUSH_NULL", 4), ("STACK_PUSH_UNDEFINED", 5),
   ("STACK_PUSH_DUPLICATE", 6), ("STACK_POP", 7), ("ARITHMETIC_ADD", 8),
   ("ARITHMETIC_SUB", 9), ("ARITHMETIC_MUL", 10), ("ARITHMETIC_DIV", 11),
   ("ARITHMETIC_MOD", 12), ("COMPARISON_EQUAL", 13), ("COMPARISON_STRICT_EQUAL", 14),
   ("COMPARISON_NOT_EQUAL", 15), ("COMPARISON_STRICT_NOT_EQUAL", 16),
   ("COMPARISON_LESS", 17), ("COMPARISON_LESS_OR_EQUAL", 18),
   ("COMPARISON_GREATER", 19), ("COMPARISON_GREATER_OR_EQUAL", 20),
   ("BINARY_BIT_SHIFT_LEFT", 21), ("BINARY_BIT_SHIFT_RIGHT", 22),
   ("BINARY_UNSIGNED_BIT_SHIFT_RIGHT", 23), ("BINARY_BIT_XOR", 24),
   ("BINARY_BIT_AND", 25), ("BINARY_BIT_OR", 26), ("BINARY_IN", 27),
   ("BINARY_INSTANCEOF", 28), ("UNARY_PLUS", 29), ("UNARY_MINUS", 30),
   ("UNARY_NOT", 31), ("UNARY_BIT_NOT", 32), ("UNARY_TYPEOF", 33),
   ("UNARY_VOID", 34), ("UNARY_THROW", 35), ("UPDATE_PLUS", 36),
   ("UPDATE_MINUS", 37), ("PROP_UPDATE_PLUS", 38), ("PROP_UPDATE_MINUS", 39),
   ("COMPLEX_PROP_UPDATE_PLUS", 40), ("COMPLEX_PROP_UPDATE_MINUS", 41),
   ("LOAD_VARIABLE", 42), ("STORE_VARIABLE", 43), ("ASSIGN_VARIABLE", 44),
   ("ADD_ASSIGN_VARIABLE", 45), ("SUB_ASSIGN_VARIABLE", 46),
   ("MUL_ASSIGN_VARIABLE", 47), ("DIV_ASSIGN_VARIABLE", 48),
   ("MOD_ASSIGN_VARIABLE", 49), ("BIT_SHIFT_LEFT_ASSIGN_VARIABLE", 50),
   ("BIT_SHIFT_RIGHT_ASSIGN_VAIRABLE", 51),
   ("UNSIGNED_BIT_SHIFT_RIGHT_ASSIGN_VARIABLE", 52),
   ("BIT_XOR_ASSIGN_VARIABLE", 53), ("BIT_AND_ASSIGN_VARIABLE", 54),
   ("BIT_OR_ASSIGN_VARIABLE", 55), ("LOAD_GLOBAL", 56), ("LOAD_GLOBAL_PROP", 57),
   ("LOAD_THIS", 58), ("LOAD_ARGUMENT", 59), ("LOAD_ARGUMENTS", 60),
   ("CALL_FUNCTION", 61), ("CALL_METHOD", 62), ("CONSTRUCT", 63),
   ("GET_PROPERTY", 64), ("SET_PROPERTY", 65), ("BUILD_ARRAY", 66),
   ("BUILD_OBJECT", 67), ("BUILD_FUNCTION", 68), ("JUMP", 69),
   ("JUMP_IF_TRUE", 70), ("JUMP_IF_FALSE", 71), ("RETURN", 72), ("DEBUGGER", 73)]

/-- `OpcodeNames`: the reverse lookup of `OperationCode`. -/
def opcodeNames (n : Nat) : Option String :=
  (operationCode.find? (fun p => p.2 = n)).map Prod.fst

/-- Association lookup for objects/maps keyed by opcode number. -/
def assocNat : List (Nat × String) → Nat → Option String
  | [], _ => none
  | (k, v) :: rest, key => if k = key then some v else assocNat rest key

/-- The disassembler's per-payload context: string table, opcode map,
nominated RETURN opcode, and detected version (`null` before detection).
The source also builds a `reverseOpcodeMap` in the constructor; nothing in
the disassembly loop reads it, so it is not modelled. -/
structure DisasmEnv where
  strings : List String
  opcodeMap : List (Nat × String)
  returnOpcode : Option Nat := none
  version : Option NebulaVersion := none
deriving DecidableEq, Repr

/-- `getOpcodeName`: RETURN override, then the payload's opcode map, then the
canonical table, else `UNKNOWN_<n>`. -/
def getOpcodeNameBase (env : DisasmEnv) (op : Nat) : String :=
  match assocNat env.opcodeMap op with
  | some nm => nm
  | none => match opcodeNames op with
    | some nm => nm
    | none => "UNKNOWN_" ++ Nat.repr op

def getOpcodeName (env : DisasmEnv) (op : Nat) : String :=
  match env.returnOpcode with
  | some r => if op = r then "RETURN" else getOpcodeNameBase env op
  | none => getOpcodeNameBase env op

/-- A byte fetched from a `Uint8Array`: stored values are reduced mod 256 and
an out-of-range read yields `undefined`, which every consumer in the
disassembler coerces to 0 (`|` arithmetic, `=== 1` comparisons, `Uint8Array`
stores), so it is modelled as 0. -/
def byteAt (bc : List Nat) (p : Nat) : Nat := (bc.getD p 0) % 256

/-- `readDword`: unsigned 32-bit little-endian (the `>>> 0` of the source). -/
def readDwordAt (bc : List Nat) (p : Nat) : Nat :=
  byteAt bc p + byteAt bc (p + 1) * 256 + byteAt bc (p + 2) * 65536 +
    byteAt bc (p + 3) * 16777216

/-- `readSignedDword`: the same four bytes as a signed 32-bit value. -/
def readSignedDwordAt (bc : List Nat) (p : Nat) : Int :=
  if readDwordAt bc p < 2147483648 then (readDwordAt bc p : Int)
  else (readDwordAt bc p : Int) - 4294967296

/-- `this.strings[idx] || fallback` (JavaScript: missing entry or empty
string falls back). -/
def strTableGet (strings : List String) (idx : Nat) (fb : String) : String :=
  match strings.get? idx with
  | some s => if s = "" then fb else s
  | none => fb

/-- The operand fields decoded for one instruction: the `switch` of
`Disassembler.disassemble`, with `p` the pointer just after the opcode byte.
`width` is the number of operand bytes consumed.  All zero-operand cases
(stack pushes without operands, binary/unary operators, `GET_PROPERTY`,
`SET_PROPERTY`, `LOAD_GLOBAL_PROP`, `TRY_FINALLY`, …) behave exactly like
the `default` case — no operand bytes — and are folded into it.  The `try`
around operand decoding can only catch a thrown exception, and no read in
this code throws (out-of-range typed-array reads yield `undefined`, which
every consumer coerces to 0), so the `error` field is never set. -/
structure DecodedOps where
  args : List JArg := []
  stringValue : Option String := none
  fnBody : Option (List Nat) := none
  patternValue : Option String := none
  flagsValue : Option String := none
  setVersion : Bool := false
  width : Nat := 0
deriving DecidableEq, Repr

def decodeOperands (env : DisasmEnv) (bc : List Nat) (p : Nat)
    (opName : String) : DecodedOps :=
  if opName = "STACK_PUSH_STRING" then
    { args := [⟨"string_index", .num (readDwordAt bc p)⟩],
      stringValue := some (strTableGet env.strings (readDwordAt bc p)
        ("[string_" ++ Nat.repr (readDwordAt bc p) ++ "]")),
      width := 4 }
  else if opName = "STACK_PUSH_DWORD" then
    { args := [⟨"dword", .num (readSignedDwordAt bc p)⟩], width := 4 }
  else if opName = "STACK_PUSH_DOUBLE" then
    { args := [⟨"double", .dbl ((List.range 8).map (fun i => byteAt bc (p + i)))⟩],
      width := 8 }
  else if opName = "STACK_PUSH_BOOLEAN" then
    { args := [⟨"boolean", .boolv (byteAt bc p = 1)⟩], width := 1 }
  else if opName = "UPDATE_PLUS" ∨ opName = "UPDATE_MINUS" ∨
      opName = "PROP_UPDATE_PLUS" ∨ opName = "PROP_UPDATE_MINUS" then
    { args := [⟨"prefix", .boolv (byteAt bc p = 1)⟩,
        ⟨"scope", .num (readDwordAt bc (p + 1))⟩,
        ⟨"dest", .num (readDwordAt bc (p + 5))⟩], width := 9 }
  else if opName = "COMPLEX_PROP_UPDATE_PLUS" ∨
      opName = "COMPLEX_PROP_UPDATE_MINUS" then
    { args := [⟨"prefix", .boolv (byteAt bc p = 1)⟩], width := 1 }
  else if opName = "LOAD_VARIABLE" ∨ opName = "STORE_VARIABLE" then
    { args := [⟨"scope", .num (readDwordAt bc p)⟩,
        ⟨"dest", .num (readDwordAt bc (p + 4))⟩], width := 8 }
  else if opName = "ASSIGN_VARIABLE" then
    if byteAt bc p ≠ 0 then
      { args := [⟨"is_op", .num (byteAt bc p)⟩,
          ⟨"scope", .num (readDwordAt bc (p + 1))⟩,
          ⟨"dest", .num (readDwordAt bc (p + 5))⟩,
          ⟨"assign_op", .str (getOpcodeName env (byteAt bc (p + 9)))⟩],
        width := 10 }
    else
      { args := [⟨"is_op", .num (byteAt bc p)⟩,
          ⟨"scope", .num (readDwordAt bc (p + 1))⟩,
          ⟨"dest", .num (readDwordAt bc (p + 5))⟩], width := 9 }
  else if opName = "LOAD_ARGUMENT" then
    { args := [⟨"index", .num (readDwordAt bc p)⟩], width := 4 }
  else if opName = "CALL_FUNCTION" ∨ opName = "CALL_METHOD" ∨
      opName = "CONSTRUCT" then
    { args := [⟨"argc", .num (readDwordAt bc p)⟩], width := 4 }
  else if opName = "BUILD_ARRAY" ∨ opName = "BUILD_OBJECT" then
    { args := [⟨"length", .num (readDwordAt bc p)⟩], width := 4 }
  else if opName = "BUILD_FUNCTION" then
    { args := [⟨"fn_body_length", .num (readDwordAt bc p)⟩],
      fnBody := some ((List.range (readDwordAt bc p)).map
        (fun i => byteAt bc (p + 4 + i))),
      setVersion := true,
      width := 4 + readDwordAt bc p }
  else if opName = "JUMP" ∨ opName = "JUMP_IF_TRUE" ∨ opName = "JUMP_IF_FALSE" then
    { args := [⟨"address", .num (readDwordAt bc p)⟩], width := 4 }
  else if opName = "RETURN" then
    { args := [⟨"has_value", .boolv (byteAt bc p = 1)⟩], width := 1 }
  else if opName = "BUILD_REGEXP" then
    if env.version = some NebulaVersion.V2_CURRENT then
      { args := [⟨"has_flags", .boolv (byteAt bc p = 1)⟩], width := 1 }
    else
      { args := [⟨"pattern_index", .num (readDwordAt bc p)⟩,
          ⟨"flags_index", .num (readDwordAt bc (p + 4))⟩],
        patternValue := some (strTableGet env.strings (readDwordAt bc p)
          ("[pattern_" ++ Nat.repr (readDwordAt bc p) ++ "]")),
        flagsValue := some (strTableGet env.strings (readDwordAt bc (p + 4)) ""),
        width := 8 }
  else if opName = "TRY_PUSH" then
    if env.version = some NebulaVersion.V2_CURRENT then
      { args := [⟨"catch_addr", .num (readDwordAt bc p)⟩], width := 4 }
    else
      { args := [⟨"catch_addr", .num (readDwordAt bc p)⟩,
          ⟨"finally_addr", .num (readDwordAt bc (p + 4))⟩], width := 8 }
  else if opName = "TRY_CATCH" then
    { args := [⟨"scope", .num (readDwordAt bc p)⟩,
        ⟨"var_slot", .num (readDwordAt bc (p + 4))⟩], width := 8 }
  else
    {}

/-- Decode one instruction at address `a`: record `addr = pointer`, read the
opcode byte, translate it, decode the operands, and return the instruction
together with the advanced pointer. -/
def decodeInstr (env : DisasmEnv) (bc : List Nat) (a : Nat) : Instr × Nat :=
  ({ addr := a,
     opcode := byteAt bc a,
     opName := getOpcodeName env (byteAt bc a),
     args := (decodeOperands env bc (a + 1) (getOpcodeName env (byteAt bc a))).args,
     stringValue := (decodeOperands env bc (a + 1) (getOpcodeName env (byteAt bc a))).stringValue,
     fnBody := (decodeOperands env bc (a + 1) (getOpcodeName env (byteAt bc a))).fnBody,
     patternValue := (decodeOperands env bc (a + 1) (getOpcodeName env (byteAt bc a))).patternValue,
     flagsValue := (decodeOperands env bc (a + 1) (getOpcodeName env (byteAt bc a))).flagsValue,
     detectedVersion :=
       if (decodeOperands env bc (a + 1) (getOpcodeName env (byteAt bc a))).setVersion
       then env.version else none,
     error := none },
   a + 1 + (decodeOperands env bc (a + 1) (getOpcodeName env (byteAt bc a))).width)

theorem decodeInstr_ptr_gt (env : DisasmEnv) (bc : List Nat) (a : Nat) :
    a < (decodeInstr env bc a).2 := by
  show a < a + 1 + (decodeOperands env bc (a + 1) (getOpcodeName env (byteAt bc a))).width
  omega

theorem decodeInstr_addr (env : DisasmEnv) (bc : List Nat) (a : Nat) :
    (decodeInstr env bc a).1.addr = a := rfl

theorem decodeInstr_error (env : DisasmEnv) (bc : List Nat) (a : Nat) :
    (decodeInstr env bc a).1.error = none := rfl

/-- The main disassembly loop (`while (this.pointer < this.bytecode.length)`).
Each iteration records `addr = pointer`, decodes one instruction and
continues at the advanced pointer. -/
def disassembleLoop (env : DisasmEnv) (bc : List Nat) (p : Nat) : List Instr :=
  if h : p < bc.length then
    (decodeInstr env bc p).1 :: disassembleLoop env bc (decodeInstr env bc p).2
  else []
termination_by bc.length - p
decreasing_by
  have := decodeInstr_ptr_gt env bc p
  omega

theorem disassembleLoop_addr_lb (env : DisasmEnv) (bc : List Nat) (p : Nat) :
    ∀ i ∈ disassembleLoop env bc p, p ≤ i.addr := by
  by_cases h : p < bc.length
  · rw [disassembleLoop, dif_pos h]
    intro i hi
    rcases List.mem_cons.mp hi with rfl | hi
    · rw [decodeInstr_addr]
    · have hgt := decodeInstr_ptr_gt env bc p
      have := disassembleLoop_addr_lb env bc (decodeInstr env bc p).2 i hi
      omega
  · rw [disassembleLoop, dif_neg h]
    intro i hi
    exact absurd hi (List.not_mem_nil i)
termination_by bc.length - p
decreasing_by
  have := decodeInstr_ptr_gt env bc p
  omega

theorem disassembleLoop_chain (env : DisasmEnv) (bc : List Nat) (p : Nat) :
    List.Chain' (· < ·) ((disassembleLoop env bc p).map Instr.addr) := by
  by_cases h : p < bc.length
  · rw [disassembleLoop, dif_pos h]
    have hrest := disassembleLoop_chain env bc (decodeInstr env bc p).2
    rw [List.map_cons]
    apply List.Chain'.cons'
    · exact hrest
    · intro y hy
      rw [decodeInstr_addr]
      obtain ⟨j, hj, rfl⟩ := List.mem_map.mp (List.mem_of_mem_head? hy)
      have hlb := disassembleLoop_addr_lb env bc (decodeInstr env bc p).2 j hj
      have hgt := decodeInstr_ptr_gt env bc p
      omega
  · rw [disassembleLoop, dif_neg h]
    simp
termination_by bc.length - p
decreasing_by
  have := decodeInstr_ptr_gt env bc p
  omega

/-! ## Version sensing and decompression (`detectVersionAndDecompress`) -/

/-- Modelled from the spec: `decompressLZ77` is imported by the disassembler
from `src/runtime/bytecodeReader.js`, but the copy of that file in the
repository snapshot predates V2 support and does not contain it.  Per §6 of
the specification: the data is a sequence of groups, each a flag byte whose
8 bits are consumed LSB-first; a `1` bit takes one literal byte from the
input, a `0` bit a back-reference `(distance:u16LE, length:u16LE)` copying
`length` bytes from `distance` bytes before the current output position
(byte by byte, so overlapping copies replicate); decoding halts when the
input is exhausted.  The model is total (fuel bounded by the input size);
the source's possible exceptions are handled by its caller falling back to
V1, which coincides with the model's behavior through the
`looksLikeBytecode` guard. -/
def lzCopy (out : List Nat) (dist : Nat) : Nat → List Nat
  | 0 => out
  | n + 1 => lzCopy (out ++ [out.getD (out.length - dist) 0]) dist n

def lzSlots (fuel : Nat) (inp : List Nat) (flag : Nat) (slot : Nat) (pos : Nat)
    (out : List Nat) : List Nat :=
  match fuel with
  | 0 => out
  | fuel + 1 =>
    if slot ≥ 8 then
      if pos ≥ inp.length then out
      else lzSlots fuel inp (byteAt inp pos) 0 (pos + 1) out
    else if pos ≥ inp.length then out
    else if (flag >>> slot) % 2 = 1 then
      lzSlots fuel inp flag (slot + 1) (pos + 1) (out ++ [byteAt inp pos])
    else
      lzSlots fuel inp flag (slot + 1) (pos + 4)
        (lzCopy out (byteAt inp pos + byteAt inp (pos + 1) * 256)
          (byteAt inp (pos + 2) + byteAt inp (pos + 3) * 256))

def decompressLZ77 (inp : List Nat) : List Nat :=
  if inp.length = 0 then [] else lzSlots (8 * inp.length + 16) inp (byteAt inp 0) 0 1 []

/-- `looksLikeBytecode`: length ≥ 4, first byte a known opcode, and at least
30% of the first twenty bytes in the legal opcode range `[0, 80]`.
JavaScript computes `validOpcodes.length >= sample.length * 0.3` with IEEE
doubles; for every sample length `m ≤ 20` and integer `k`, the float
comparison `k >= 0.3*m` agrees with the exact rational `10*k >= 3*m`
(finite check over `m = 0..20`), so the integer form below is exact. -/
def looksLikeBytecode (env : DisasmEnv) (data : List Nat) : Bool :=
  if data.length < 4 then false
  else if (assocNat env.opcodeMap (byteAt data 0)).isNone then false
  else
    10 * ((data.take (min 20 data.length)).filter (fun b => b % 256 ≤ 80)).length ≥
      3 * (data.take (min 20 data.length)).length

/-- The V1 fallback tail of `detectVersionAndDecompress`: `pointer = 1`
skips the leading compression flag; flag `1` attempts a zlib inflate
(`pako.inflate` is an external library, modelled as the `inflate` parameter,
`none` standing for a thrown decompression error). -/
def detectV1 (inflate : List Nat → Option (List Nat)) (bc : List Nat) :
    List Nat × Nat × NebulaVersion :=
  if bc.head? = some 1 then
    match inflate (bc.drop 1) with
    | some d => (d, 0, NebulaVersion.V1_LEGACY)
    | none => (bc, 1, NebulaVersion.V1_LEGACY)
  else (bc, 1, NebulaVersion.V1_LEGACY)

/-- `detectVersionAndDecompress`: V2 (flag at the end) is tried first; V1 is
the fallback.  Returns the working bytecode, the initial pointer and the
detected version. -/
def detectVersionAndDecompress (env : DisasmEnv)
    (inflate : List Nat → Option (List Nat)) (bc : List Nat) :
    List Nat × Nat × NebulaVersion :=
  if bc.getLast? = some 0 ∨ bc.getLast? = some 1 then
    if bc.getLast? = some 1 then
      if (decompressLZ77 bc.dropLast).length > 0 ∧
          looksLikeBytecode env (decompressLZ77 bc.dropLast) then
        (decompressLZ77 bc.dropLast, 0, NebulaVersion.V2_CURRENT)
      else detectV1 inflate bc
    else
      if looksLikeBytecode env bc.dropLast then
        (bc.dropLast, 0, NebulaVersion.V2_CURRENT)
      else detectV1 inflate bc
  else detectV1 inflate bc

/-- `Disassembler.disassemble`: version detection/decompression, then the
decode loop, with the detected version visible to the loop. -/
def disassemble (env : DisasmEnv) (inflate : List Nat → Option (List Nat))
    (bc : List Nat) : List Instr :=
  disassembleLoop
    { env with version := some (detectVersionAndDecompress env inflate bc).2.2 }
    (detectVersionAndDecompress env inflate bc).1
    (detectVersionAndDecompress env inflate bc).2.1

/-- C8: the `addr` fields of the instruction list returned by `disassemble`
are strictly increasing — each instruction records the pointer before its
opcode byte and the pointer advances by at least one byte per instruction.
(Proved for the decode loop from any start pointer, hence for `disassemble`
with any environment, inflate oracle and input bytes.) -/
theorem c8_addresses_strictly_increasing (env : DisasmEnv)
    (inflate : List Nat → Option (List Nat)) (bc : List Nat) :
    List.Chain' (· < ·) ((disassemble env inflate bc).map Instr.addr) :=
  disassembleLoop_chain _ _ _

/-- The environment for the C3 counterexample: opcode byte 7 maps to
`STACK_PUSH_DWORD`, whose operand is a 4-byte dword. -/
def envC3 : DisasmEnv := { strings := [], opcodeMap := [(7, "STACK_PUSH_DWORD")] }

/-- C3 (as stated) is false on the `error` clause: decoding `[7, 1]` (opcode
plus a truncated 1-byte operand) reads past the end of the stream — the
pointer lands at 6 > 2 — yet the decoded instruction carries *no* `error`
field (out-of-range typed-array reads return `undefined`, coerced to 0; the
`try/catch` never fires), while the missing operand bytes read as zero. -/
theorem c3_counterexample :
    ([7, 1] : List Nat).length < (decodeInstr envC3 [7, 1] 0).2 ∧
    disassembleLoop envC3 [7, 1] 0 =
      [{ addr := 0, opcode := 7, opName := "STACK_PUSH_DWORD",
         args := [⟨"dword", JVal.num 1⟩], error := none }] := by
  constructor
  · decide
  · rw [disassembleLoop, dif_pos (by decide)]
    rw [disassembleLoop, dif_neg (by decide)]
    decide

/-- No decoded instruction ever carries an `error` field. -/
theorem disassembleLoop_error_none (env : DisasmEnv) (bc : List Nat) (q : Nat) :
    ∀ i ∈ disassembleLoop env bc q, i.error = none := by
  by_cases h : q < bc.length
  · rw [disassembleLoop, dif_pos h]
    intro i hi
    rcases List.mem_cons.mp hi with rfl | hi
    · exact decodeInstr_error env bc q
    · exact disassembleLoop_error_none env bc (decodeInstr env bc q).2 i hi
  · rw [disassembleLoop, dif_neg h]
    intro i hi
    exact absurd hi (List.not_mem_nil i)
termination_by bc.length - q
decreasing_by
  have := decodeInstr_ptr_gt env bc q
  omega

/-- C3 amended: when decoding an instruction's operands reads past the end of
the byte stream, the missing bytes read as zero, the instruction is decoded
*without* any `error` field, it is the last instruction of the body (the
pointer has passed the end, so the loop halts and no further instruction is
decoded), and all previously decoded instructions are kept unchanged (the
loop emits them before reaching the erroneous one and never revisits them —
indeed no decoded instruction of any body ever carries an `error`). -/
theorem c3_underrun_behavior (env : DisasmEnv) (bc : List Nat) (p : Nat)
    (hp : p < bc.length) (hover : bc.length < (decodeInstr env bc p).2) :
    disassembleLoop env bc p = [(decodeInstr env bc p).1] ∧
    (decodeInstr env bc p).1.error = none ∧
    (∀ q, ∀ i ∈ disassembleLoop env bc q, i.error = none) := by
  refine ⟨?_, decodeInstr_error env bc p, disassembleLoop_error_none env bc⟩
  rw [disassembleLoop, dif_pos hp]
  rw [disassembleLoop, dif_neg (by omega)]

theorem c3_underrun_behavior_witness :
    disassembleLoop envC3 [7, 1, 7, 1, 0, 0] 2 = [(decodeInstr envC3 [7, 1, 7, 1, 0, 0] 2).1] ∧
    (decodeInstr envC3 [7, 1, 7, 1, 0, 0] 2).1.error = none ∧
    (∀ q, ∀ i ∈ disassembleLoop envC3 [7, 1, 7, 1, 0, 0] q, i.error = none) :=
  c3_underrun_behavior envC3 [7, 1, 7, 1, 0, 0] 2 (by decide) (by decide)

/-- The environment for the C4 theorems: opcode byte 0 is a known opcode. -/
def envC4 : DisasmEnv := { strings := [], opcodeMap := [(0, "STACK_PUSH_NULL")] }

/-- C4 (as stated) is false: for `[0,0,0,0,0]` both version heuristics
plausibly match (the last byte is 0 and stripping it yields a plausible
opcode start; the first byte is also 0), yet the decoder selects V2 — it
does not fall back to V1, and it records no diagnostic. -/
theorem c4_counterexample :
    (([0, 0, 0, 0, 0] : List Nat).getLast? = some 0 ∧
      looksLikeBytecode envC4 ([0, 0, 0, 0, 0] : List Nat).dropLast = true ∧
      ([0, 0, 0, 0, 0] : List Nat).head? = some 0) ∧
    (detectVersionAndDecompress envC4 (fun _ => none) [0, 0, 0, 0, 0]).2.2 =
      NebulaVersion.V2_CURRENT := by
  decide

/-- C4 amended: when both the V1 and the V2 version-sensing heuristics
plausibly match (uncompressed V2 case: last byte 0, stripped payload passes
`looksLikeBytecode`, and the first byte is 0 or 1), the decoder treats the
payload as V2 — V2 is tried first and V1 is only the fallback when the V2
heuristic fails; no diagnostic is recorded. -/
theorem c4_v2_wins_when_both_plausible (env : DisasmEnv)
    (inflate : List Nat → Option (List Nat)) (bc : List Nat)
    (hlast : bc.getLast? = some 0)
    (hv2 : looksLikeBytecode env bc.dropLast = true)
    (hv1 : bc.head? = some 0 ∨ bc.head? = some 1) :
    detectVersionAndDecompress env inflate bc =
      (bc.dropLast, 0, NebulaVersion.V2_CURRENT) := by
  unfold detectVersionAndDecompress
  rw [if_pos (Or.inl hlast)]
  rw [if_neg (by rw [hlast]; simp)]
  rw [if_pos hv2]

theorem c4_v2_wins_when_both_plausible_witness :
    detectVersionAndDecompress envC4 (fun _ => none) [0, 0, 0, 0, 0] =
      (([0, 0, 0, 0, 0] : List Nat).dropLast, 0, NebulaVersion.V2_CURRENT) :=
  c4_v2_wins_when_both_plausible envC4 (fun _ => none) [0, 0, 0, 0, 0]
    (by decide) (by decide) (Or.inl (by decide))

/-! ## CFG construction (`src/lib/cfg.js`, `ControlFlowGraph.build`)

Leaders are index 0, every resolved jump target, and the instruction after
any jump or `RETURN`.  The JavaScript builds the leader set by insertion and
then sorts numerically; here the same set is produced already sorted, as the
ordered filter of `range n` by the leader predicate (the contents coincide:
inserted targets come from `addrToIdx` so are `< n`, the `i+1` insertions
are guarded by `i+1 < n`, and 0 is inserted explicitly).

`addrToIdx` is a JavaScript `Map` filled with `set(addr, i)` for `i`
ascending, so for duplicate addresses the *last* index wins; lookups of
anything that is not the address of an instruction give `undefined`.
-/

def isJumpName (s : String) : Bool :=
  s = "JUMP" || s = "JUMP_IF_TRUE" || s = "JUMP_IF_FALSE"

def isCondName (s : String) : Bool :=
  s = "JUMP_IF_TRUE" || s = "JUMP_IF_FALSE"

def argVal? (i : Instr) (k : Nat) : Option JVal :=
  (i.args.get? k).map JArg.value

/-- `instr.args[k]?.value` where a numeric value is expected; a missing or
non-numeric operand behaves like `undefined` (no lookup will match it). -/
def argNum? (i : Instr) (k : Nat) : Option Int :=
  match argVal? i k with
  | some (.num n) => some n
  | _ => none

def addrToIdx (instrs : List Instr) (a : Int) : Option Nat :=
  (instrs.enum.reverse.find? (fun p => (p.2.addr : Int) = a)).map Prod.fst

/-- `addrToIdx.get(instr.args[0]?.value)` for a jump instruction. -/
def resolveTarget (instrs : List Instr) (i : Instr) : Option Nat :=
  match argNum? i 0 with
  | some a => addrToIdx instrs a
  | none => none

def isLeader (instrs : List Instr) (j : Nat) : Bool :=
  j == 0 ||
  instrs.any (fun i => isJumpName i.opName && resolveTarget instrs i == some j) ||
  (match instrs.get? (j - 1) with
   | some prev => decide (1 ≤ j) && (isJumpName prev.opName || prev.opName == "RETURN")
   | none => false)

def sortedLeaders (instrs : List Instr) : List Nat :=
  (List.range instrs.length).filter (fun j => isLeader instrs j)

/-- Consecutive leaders delimit the blocks: `[l_i, l_{i+1} - 1]`, the final
block running to the last instruction. -/
def blockBounds : List Nat → Nat → List (Nat × Nat)
  | [], _ => []
  | [l], n => [(l, n - 1)]
  | l :: l2 :: rest, n => (l, l2 - 1) :: blockBounds (l2 :: rest) n

structure BBlock where
  id : Nat
  startIdx : Nat
  endIdx : Nat
  instructions : List Instr
deriving DecidableEq, Repr

def buildBlocks (instrs : List Instr) : List BBlock :=
  (blockBounds (sortedLeaders instrs) instrs.length).enum.map
    (fun p => ⟨p.1, p.2.1, p.2.2, (instrs.drop p.2.1).take (p.2.2 + 1 - p.2.1)⟩)

/-- `idxToBlock` as a block id: index `j` lies in the block of the greatest
leader `≤ j`, whose id is the number of leaders `≤ j` minus one. -/
def blockIdxOf (instrs : List Instr) (j : Nat) : Nat :=
  (((sortedLeaders instrs).filter (fun l => l ≤ j))).length - 1

/-- Edge construction for one block, in the push order of the source: the
jump target edge (when the target resolves), then — for conditionals — the
fallthrough edge; `RETURN` blocks get none and other blocks fall through.
Ids of successor blocks, with multiplicity. -/
def blockSuccessors (instrs : List Instr) (b : BBlock) : List Nat :=
  match b.instructions.getLast? with
  | none => []
  | some lastInstr =>
    if lastInstr.opName = "JUMP" then
      match resolveTarget instrs lastInstr with
      | some t => [blockIdxOf instrs t]
      | none => []
    else if isCondName lastInstr.opName then
      (match resolveTarget instrs lastInstr with
       | some t => [blockIdxOf instrs t]
       | none => []) ++
      (if b.endIdx + 1 < instrs.length then [blockIdxOf instrs (b.endIdx + 1)] else [])
    else if lastInstr.opName = "RETURN" then []
    else if b.endIdx + 1 < instrs.length then [blockIdxOf instrs (b.endIdx + 1)]
    else []

theorem sortedLeaders_sorted (instrs : List Instr) :
    (sortedLeaders instrs).Pairwise (· < ·) :=
  (List.pairwise_lt_range instrs.length).filter _

theorem sortedLeaders_lt (instrs : List Instr) :
    ∀ l ∈ sortedLeaders instrs, l < instrs.length := by
  intro l hl
  exact List.mem_range.mp (List.mem_of_mem_filter hl)

theorem blockBounds_spec (L : List Nat) (n : Nat)
    (hsort : L.Pairwise (· < ·)) (hlt : ∀ l ∈ L, l < n) :
    ∀ se ∈ blockBounds L n, se.1 ≤ se.2 ∧ se.2 < n := by
  induction L with
  | nil => intro se hse; simp [blockBounds] at hse
  | cons l rest ih =>
    cases rest with
    | nil =>
      intro se hse
      simp only [blockBounds, List.mem_singleton] at hse
      subst hse
      have := hlt l (by simp)
      constructor <;> simp <;> omega
    | cons l2 rest2 =>
      intro se hse
      simp only [blockBounds, List.mem_cons] at hse
      rcases hse with rfl | hse
      · have hl2 : l < l2 := by
          have := List.pairwise_cons.mp hsort
          exact this.1 l2 (by simp)
        have := hlt l2 (by simp)
        constructor <;> simp <;> omega
      · exact ih (List.pairwise_cons.mp hsort).2
          (fun x hx => hlt x (by simp [hx])) se hse

theorem slice_getLast (instrs : List Instr) (s e : Nat) (hse : s ≤ e)
    (hen : e < instrs.length) :
    ((instrs.drop s).take (e + 1 - s)).getLast? = instrs[e]? := by
  rw [List.getLast?_eq_getElem?]
  have hlen : ((instrs.drop s).take (e + 1 - s)).length = e + 1 - s := by
    rw [List.length_take, List.length_drop]
    omega
  rw [hlen]
  rw [List.getElem?_take_of_lt (by omega)]
  rw [List.getElem?_drop]
  congr 1
  omega

/-- C5 (as stated) is false: a body consisting of a single non-`RETURN`
instruction yields one block with zero successors, but the block does not
end with `RETURN`, contradicting the claimed `= 0 ↔ ends with RETURN`. -/
def instrsC5 : List Instr :=
  [{ addr := 0, opcode := 4, opName := "STACK_PUSH_NULL", args := [] }]

theorem c5_counterexample :
    buildBlocks instrsC5 =
      [⟨0, 0, 0, [{ addr := 0, opcode := 4, opName := "STACK_PUSH_NULL", args := [] }]⟩] ∧
    blockSuccessors instrsC5 ⟨0, 0, 0,
      [{ addr := 0, opcode := 4, opName := "STACK_PUSH_NULL", args := [] }]⟩ = [] ∧
    ¬ ("STACK_PUSH_NULL" = "RETURN") := by
  refine ⟨?_, ?_, by decide⟩
  · decide
  · decide

/-- C5 amended: for a body whose last instruction is `RETURN` and whose jump
targets all resolve to instruction addresses, every basic block has 0, 1 or
2 successors; exactly 2 iff it ends with a conditional jump, and exactly 0
iff it ends with `RETURN`. -/
theorem c5_successor_counts (instrs : List Instr)
    (hret : ∃ r, instrs[instrs.length - 1]? = some r ∧ r.opName = "RETURN")
    (hjmp : ∀ i ∈ instrs, isJumpName i.opName = true →
      ∃ t, resolveTarget instrs i = some t) :
    ∀ b ∈ buildBlocks instrs, ∃ last, b.instructions.getLast? = some last ∧
      (blockSuccessors instrs b).length ≤ 2 ∧
      ((blockSuccessors instrs b).length = 2 ↔ isCondName last.opName = true) ∧
      ((blockSuccessors instrs b).length = 0 ↔ last.opName = "RETURN") := by
  intro b hb
  obtain ⟨r, hr, hrret⟩ := hret
  have hn : 0 < instrs.length := by
    by_contra hempty
    have hlen0 : instrs.length = 0 := by omega
    have hnil : instrs = [] := List.length_eq_zero.mp hlen0
    rw [hnil] at hr
    simp at hr
  obtain ⟨pr, hpr, hprb⟩ := List.mem_map.mp hb
  have hse : pr.2 ∈ blockBounds (sortedLeaders instrs) instrs.length :=
    List.snd_mem_of_mem_enum hpr
  obtain ⟨h1, h2⟩ := blockBounds_spec (sortedLeaders instrs) instrs.length
    (sortedLeaders_sorted instrs) (sortedLeaders_lt instrs) pr.2 hse
  obtain ⟨last, hlast⟩ : ∃ last, instrs[pr.2.2]? = some last :=
    ⟨instrs[pr.2.2], List.getElem?_eq_getElem h2⟩
  have hmem : last ∈ instrs := by
    have := List.getElem?_eq_some_iff.mp hlast
    obtain ⟨hh, rfl⟩ := this
    exact List.getElem_mem hh
  have hbl : b.instructions.getLast? = some last := by
    rw [← hprb]
    simpa using (slice_getLast instrs pr.2.1 pr.2.2 h1 h2).trans hlast
  have hend : b.endIdx = pr.2.2 := by rw [← hprb]
  refine ⟨last, hbl, ?_⟩
  -- if the block's last instruction is not at the end of the body,
  -- the fallthrough index is a valid instruction index
  have hnotlast : last.opName ≠ "RETURN" → pr.2.2 + 1 < instrs.length := by
    intro hnr
    rcases Nat.lt_or_ge (pr.2.2 + 1) instrs.length with hlt | hge
    · exact hlt
    · exfalso
      have : pr.2.2 = instrs.length - 1 := by omega
      rw [this] at hlast
      rw [hlast] at hr
      have : last = r := by injection hr
      rw [this] at hnr
      exact hnr hrret
  simp only [blockSuccessors, hbl]
  by_cases hJ : last.opName = "JUMP"
  · obtain ⟨t, ht⟩ := hjmp last hmem (by simp [isJumpName, hJ])
    rw [if_pos hJ, ht]
    simp [isCondName, hJ]
  · rw [if_neg hJ]
    by_cases hC : isCondName last.opName = true
    · obtain ⟨t, ht⟩ := hjmp last hmem (by
        simp only [isCondName, Bool.or_eq_true, decide_eq_true_eq] at hC
        simp [isJumpName]
        tauto)
      have hCret : last.opName ≠ "RETURN" := by
        simp only [isCondName, Bool.or_eq_true, decide_eq_true_eq] at hC
        rcases hC with h | h <;> simp [h]
      rw [if_pos hC, ht, hend, if_pos (hnotlast hCret)]
      simp [hCret, hC]
    · rw [if_neg hC]
      by_cases hR : last.opName = "RETURN"
      · rw [if_pos hR]
        simp [hR, isCondName]
      · rw [if_neg hR, hend, if_pos (hnotlast hR)]
        simp [hR, hC]

def instrC5w : Instr :=
  { addr := 0, opcode := 72, opName := "RETURN",
    args := [⟨"has_value", JVal.boolv false⟩] }

theorem c5_successor_counts_witness :
    (blockSuccessors [instrC5w] ⟨0, 0, 0, [instrC5w]⟩).length ≤ 2 ∧
    ((blockSuccessors [instrC5w] ⟨0, 0, 0, [instrC5w]⟩).length = 2 ↔
      isCondName instrC5w.opName = true) ∧
    ((blockSuccessors [instrC5w] ⟨0, 0, 0, [instrC5w]⟩).length = 0 ↔
      instrC5w.opName = "RETURN") := by
  obtain ⟨last, hlast, h⟩ := c5_successor_counts [instrC5w]
    ⟨instrC5w, by decide, by decide⟩
    (by
      intro i hi hj
      rw [List.mem_singleton] at hi
      subst hi
      exact absurd hj (by decide))
    ⟨0, 0, 0, [instrC5w]⟩ (by decide)
  have h2 : (⟨0, 0, 0, [instrC5w]⟩ : BBlock).instructions.getLast? =
      some instrC5w := by decide
  have h3 : some last = some instrC5w := hlast.symm.trans h2
  injection h3 with h4
  rw [h4] at h
  exact h

/-! ## Ternary recognition (`src/emission/controlFlowReconstructor.js`)

`detectStructuredRegions` (cfg.js) produces if-else regions with
`trueBlocks`/`falseBlocks` always arrays, so the `null` guard at the top of
`isTernaryPattern` is folded into the shape match.  Filtering out `JUMP`
strips exactly the terminal `JUMP` of a branch block (a `JUMP` inside a
block can only be its last instruction, since the instruction after a jump
is always a leader). -/

structure CfgRegion where
  type : String
  conditionBlock : BBlock
  trueBlocks : List BBlock
  falseBlocks : List BBlock
  mergeBlock : Option BBlock
  startIdx : Nat
  endIdx : Nat
deriving DecidableEq, Repr

def ternStatementOps : List String :=
  ["STORE_VARIABLE", "SET_PROPERTY", "UNARY_THROW", "RETURN", "DEBUGGER"]

/-- `isPureExpr` of `isTernaryPattern`: non-empty and free of statement
opcodes. -/
def isPureExpr (instrs : List Instr) : Bool :=
  decide (instrs ≠ []) &&
    instrs.all (fun i => !(ternStatementOps.contains i.opName))

/-- `isTernaryPattern`: both branches exactly one block, both (after
stripping `JUMP`s) pure-expression sequences; returns the branch ranges. -/
def isTernaryPattern (r : CfgRegion) : Option ((Nat × Nat) × (Nat × Nat)) :=
  match r.trueBlocks, r.falseBlocks with
  | [trueBlock], [falseBlock] =>
    if isPureExpr (trueBlock.instructions.filter (fun i => i.opName ≠ "JUMP")) &&
        isPureExpr (falseBlock.instructions.filter (fun i => i.opName ≠ "JUMP")) then
      some ((trueBlock.startIdx, trueBlock.endIdx),
        (falseBlock.startIdx, falseBlock.endIdx))
    else none
  | _, _ => none

/-- `detectTernaryExpressions`: the if-else regions (keyed by condition
index) that match the ternary pattern, skipping regions with no else
branch. -/
def detectTernaryExpressions (regionsByCondIdx : List (Nat × CfgRegion)) :
    List (Nat × (CfgRegion × ((Nat × Nat) × (Nat × Nat)))) :=
  regionsByCondIdx.filterMap (fun p =>
    if p.2.falseBlocks.length = 0 then none
    else match isTernaryPattern p.2 with
      | some ranges => some (p.1, (p.2, ranges))
      | none => none)

/-- The C6 counterexample region: the true branch is a single block holding
only a `JUMP` (an empty branch), the false branch a single block holding one
pure push. -/
def rC6 : CfgRegion :=
  { type := "if-else",
    conditionBlock := ⟨0, 0, 0,
      [{ addr := 0, opcode := 71, opName := "JUMP_IF_FALSE",
         args := [⟨"address", JVal.num 10⟩] }]⟩,
    trueBlocks := [⟨1, 1, 1,
      [{ addr := 5, opcode := 69, opName := "JUMP",
         args := [⟨"address", JVal.num 11⟩] }]⟩],
    falseBlocks := [⟨2, 2, 2,
      [{ addr := 10, opcode := 4, opName := "STACK_PUSH_NULL", args := [] }]⟩],
    mergeBlock := none,
    startIdx := 0,
    endIdx := 3 }

/-- C6 (as stated) is false: in `rC6` each branch is exactly one basic block
and every instruction left after stripping the terminal `JUMP` is a
pure-expression instruction (the true branch strips to the empty list, which
vacuously contains no statement opcode), yet the region is *not* classified
as a ternary — the code additionally requires each stripped branch to be
non-empty. -/
theorem c6_counterexample :
    (rC6.trueBlocks.length = 1 ∧ rC6.falseBlocks.length = 1 ∧
      (∀ b ∈ rC6.trueBlocks, ∀ i ∈ b.instructions.filter (fun i => i.opName ≠ "JUMP"),
        ¬ (i.opName ∈ ternStatementOps)) ∧
      (∀ b ∈ rC6.falseBlocks, ∀ i ∈ b.instructions.filter (fun i => i.opName ≠ "JUMP"),
        ¬ (i.opName ∈ ternStatementOps))) ∧
    isTernaryPattern rC6 = none := by
  refine ⟨⟨by decide, by decide, ?_, ?_⟩, by decide⟩ <;> decide

/-- C6 amended: an if-else region is classified as a ternary iff each branch
is exactly one basic block whose instructions, after stripping the terminal
`JUMP`, form a *non-empty* sequence of pure-expression instructions (none of
`STORE_VARIABLE`, `SET_PROPERTY`, `UNARY_THROW`, `RETURN`, `DEBUGGER`). -/
theorem c6_ternary_iff (r : CfgRegion) :
    (isTernaryPattern r).isSome ↔
      (∃ tb fb, r.trueBlocks = [tb] ∧ r.falseBlocks = [fb] ∧
        tb.instructions.filter (fun i => i.opName ≠ "JUMP") ≠ [] ∧
        fb.instructions.filter (fun i => i.opName ≠ "JUMP") ≠ [] ∧
        (∀ i ∈ tb.instructions.filter (fun i => i.opName ≠ "JUMP"),
          ¬ (i.opName ∈ ternStatementOps)) ∧
        (∀ i ∈ fb.instructions.filter (fun i => i.opName ≠ "JUMP"),
          ¬ (i.opName ∈ ternStatementOps))) := by
  unfold isTernaryPattern
  match htb : r.trueBlocks, hfb : r.falseBlocks with
  | [], _ => simp
  | tb :: tb2 :: rest, _ => simp
  | [tb], [] => simp
  | [tb], fb :: fb2 :: rest => simp
  | [tb], [fb] =>
    simp only [isPureExpr, Bool.and_eq_true, decide_eq_true_eq, List.all_eq_true,
      Bool.not_eq_true']
    constructor
    · intro h
      split at h
      · rename_i hcond
        obtain ⟨⟨ht1, ht2⟩, ⟨hf1, hf2⟩⟩ := hcond
        refine ⟨tb, fb, rfl, rfl, ht1, hf1, ?_, ?_⟩
        · intro i hi
          have := ht2 i hi
          simpa [List.elem_iff] using this
        · intro i hi
          have := hf2 i hi
          simpa [List.elem_iff] using this
      · simp at h
    · rintro ⟨tb2, fb2, htb2, hfb2, hne1, hne2, hp1, hp2⟩
      have he1 : tb = tb2 := by injection htb2
      have he2 : fb = fb2 := by injection hfb2
      subst he1
      subst he2
      rw [if_pos ?_]
      · simp
      · refine ⟨⟨hne1, ?_⟩, hne2, ?_⟩
        · intro i hi
          have := hp1 i hi
          simpa [List.elem_iff] using this
        · intro i hi
          have := hp2 i hi
          simpa [List.elem_iff] using this

/-! ## Loop / logical detection and try-region analysis
(`src/emission/controlFlowReconstructor.js`, `CodeGenerator.analyzeTryRegions`)

These analyses are pure scans over the instruction list; JavaScript `Map`s
keyed by instruction index become association lists (`set` keeps the first
insertion position, lookups take the stored value). -/

structure LoopRec where
  pattern : String
  initJumpIdx : Option Nat := none
  bodyStartIdx : Nat
  condStartIdx : Nat
  condEndIdx : Nat
  condJumpIdx : Nat
  bodyEndIdx : Option Nat := none
  backJumpIdx : Option Nat := none
  exitIdx : Option Nat := none
  isTrue : Bool
deriving DecidableEq, Repr

structure LogicalRec where
  operator : String
  duplicateIdx : Nat
  jumpIdx : Nat
  popIdx : Nat
  rightStartIdx : Nat
  rightEndIdx : Nat
  targetIdx : Nat
deriving DecidableEq, Repr

structure TryRegion where
  tryStartIdx : Nat
  catchAddr : Option Int
  catchAddrIdx : Option Nat := none
  tryEndIdx : Option Nat := none
  catchEndIdx : Option Nat := none
  afterTryCatchAddr : Option Int := none
deriving DecidableEq, Repr

def assocGetNat {β : Type} (l : List (Nat × β)) (k : Nat) : Option β :=
  (l.find? (fun p => p.1 = k)).map Prod.snd

/-- `Map.set`: an existing key keeps its position, a new key appends. -/
def assocSetNat {β : Type} (l : List (Nat × β)) (k : Nat) (v : β) : List (Nat × β) :=
  if (l.find? (fun p => p.1 = k)).isSome then
    l.map (fun p => if p.1 = k then (k, v) else p)
  else l ++ [(k, v)]

/-- JavaScript `Set.add`: append if absent (insertion order preserved). -/
def osetAdd (s : List Nat) (x : Nat) : List Nat := if x ∈ s then s else s ++ [x]

def osetAddInt (s : List Int) (x : Int) : List Int := if x ∈ s then s else s ++ [x]

/-- V1 inner scan: from the jump target, find a conditional whose (resolved)
back target is `≤ i + 1`; a plain `JUMP` aborts the scan. (Fuel counts the
remaining iterations of the source's bounded `for` loop.) -/
def v1ScanAux : Nat → List Instr → Nat → Nat → Option Nat
  | 0, _, _, _ => none
  | fuel + 1, instrs, i, j =>
    if j < instrs.length then
      match instrs.get? j with
      | none => none
      | some ci =>
        if isCondName ci.opName then
          match resolveTarget instrs ci with
          | some back => if back ≤ i + 1 then some j else v1ScanAux fuel instrs i (j + 1)
          | none => v1ScanAux fuel instrs i (j + 1)
        else if ci.opName = "JUMP" then none
        else v1ScanAux fuel instrs i (j + 1)
    else none

def v1Scan (instrs : List Instr) (i j : Nat) : Option Nat :=
  v1ScanAux (instrs.length - j) instrs i j

def detectLoopsV1 (instrs : List Instr) : List LoopRec :=
  (List.range instrs.length).filterMap (fun i =>
    match instrs.get? i with
    | none => none
    | some instr =>
      if instr.opName = "JUMP" then
        match resolveTarget instrs instr with
        | some targetIdx =>
          if targetIdx > i then
            match v1Scan instrs i targetIdx with
            | some j => some
                { pattern := "v1", initJumpIdx := some i, bodyStartIdx := i + 1,
                  condStartIdx := targetIdx, condEndIdx := j, condJumpIdx := j,
                  isTrue := (instrs.get? j).map Instr.opName = some "JUMP_IF_TRUE" }
            | none => none
          else none
        | none => none
      else none)

/-- V2 inner scan: a `JUMP` strictly before the exit whose target is `≤ i`
and which is the last instruction before the exit; returns it together with
its back target (which becomes `condStartIdx`). (Fuel counts the remaining
iterations of the source's bounded `for` loop.) -/
def v2ScanAux : Nat → List Instr → Nat → Nat → Nat → Option (Nat × Nat)
  | 0, _, _, _, _ => none
  | fuel + 1, instrs, i, exitIdx, j =>
    if j < exitIdx then
      match instrs.get? j with
      | none => none
      | some bi =>
        if bi.opName = "JUMP" then
          match resolveTarget instrs bi with
          | some back =>
            if back ≤ i ∧ j = exitIdx - 1 then some (j, back)
            else v2ScanAux fuel instrs i exitIdx (j + 1)
          | none => v2ScanAux fuel instrs i exitIdx (j + 1)
        else v2ScanAux fuel instrs i exitIdx (j + 1)
    else none

def v2Scan (instrs : List Instr) (i exitIdx j : Nat) : Option (Nat × Nat) :=
  v2ScanAux (exitIdx - j) instrs i exitIdx j

def detectLoops (instrs : List Instr) : List LoopRec :=
  let v1 := detectLoopsV1 instrs
  let used0 := v1.foldl (fun s l =>
    (match l.initJumpIdx with | some k => s ++ [k] | none => s) ++ [l.condJumpIdx]) []
  ((List.range instrs.length).foldl (fun (st : List Nat × List LoopRec) i =>
    if i ∈ st.1 then st
    else match instrs.get? i with
      | none => st
      | some instr =>
        if isCondName instr.opName then
          match resolveTarget instrs instr with
          | some exitIdx =>
            if exitIdx > i then
              match v2Scan instrs i exitIdx (i + 1) with
              | some (j, back) =>
                (st.1 ++ [i, j], st.2 ++
                  [{ pattern := "v2", condStartIdx := back, condEndIdx := i,
                     condJumpIdx := i, bodyStartIdx := i + 1,
                     bodyEndIdx := some (j - 1), backJumpIdx := some j,
                     exitIdx := some exitIdx,
                     isTrue := instr.opName = "JUMP_IF_TRUE" }])
              | none => st
            else st
          | none => st
        else st) (used0, v1)).2

def logicalStatementOps : List String :=
  ["STORE_VARIABLE", "SET_PROPERTY", "UNARY_THROW", "RETURN", "DEBUGGER",
   "JUMP", "JUMP_IF_TRUE", "JUMP_IF_FALSE", "TRY_PUSH", "TRY_POP"]

def detectLogicalOperators (instrs : List Instr) : List (Nat × LogicalRec) :=
  (List.range instrs.length).filterMap (fun i =>
    match instrs.get? i with
    | none => none
    | some instr =>
      if ¬ (isCondName instr.opName) then none
      else if ¬ (1 ≤ i ∧ (instrs.get? (i - 1)).map Instr.opName =
          some "STACK_PUSH_DUPLICATE") then none
      else if (instrs.get? (i + 1)).map Instr.opName ≠ some "STACK_POP" then none
      else match resolveTarget instrs instr with
        | none => none
        | some targetIdx =>
          if targetIdx ≤ i + 1 then none
          else if ¬ ((List.range' (i + 2) (targetIdx - (i + 2))).all (fun j =>
              match instrs.get? j with
              | some ri => !(logicalStatementOps.contains ri.opName)
              | none => true)) then none
          else some (i,
            { operator := if instr.opName = "JUMP_IF_FALSE" then "&&" else "||",
              duplicateIdx := i - 1, jumpIdx := i, popIdx := i + 1,
              rightStartIdx := i + 2, rightEndIdx := targetIdx - 1,
              targetIdx := targetIdx }))

def buildLoopMaps (loops : List LoopRec) :
    List (Nat × LoopRec) × List (Nat × LoopRec) × List (Nat × LoopRec) :=
  loops.foldl (fun (st : _ × _ × _) loop =>
    let (byInit, byCond, byStart) := st
    let byInit := if loop.pattern = "v1" then
        (match loop.initJumpIdx with
         | some k => assocSetNat byInit k loop
         | none => byInit)
      else byInit
    let byStart := if loop.pattern = "v2" then assocSetNat byStart loop.condStartIdx loop
      else byStart
    (byInit, assocSetNat byCond loop.condJumpIdx loop, byStart)) ([], [], [])

def buildRegionMap (regions : List CfgRegion) (loops : List LoopRec) :
    List (Nat × CfgRegion) :=
  let loopCondJumps := loops.map LoopRec.condJumpIdx
  regions.foldl (fun m region =>
    if region.type = "if-else" then
      if region.conditionBlock.endIdx ∈ loopCondJumps then m
      else assocSetNat m region.conditionBlock.endIdx region
    else m) []

def findUsedLabels (instrs : List Instr) (loops : List LoopRec)
    (regionsByCondIdx : List (Nat × CfgRegion))
    (logicals : List (Nat × LogicalRec)) : List Int :=
  let loopJumpTargets := loops.foldl (fun s loop =>
    let s := match (instrs.get? loop.condJumpIdx).bind (fun i => argNum? i 0) with
      | some t => osetAddInt s t
      | none => s
    let s := match loop.initJumpIdx with
      | some k => match (instrs.get? k).bind (fun i => argNum? i 0) with
        | some t => osetAddInt s t
        | none => s
      | none => s
    let s := match loop.backJumpIdx with
      | some k => match (instrs.get? k).bind (fun i => argNum? i 0) with
        | some t => osetAddInt s t
        | none => s
      | none => s
    match loop.exitIdx with
    | some k => match instrs.get? k with
      | some i => osetAddInt s (i.addr : Int)
      | none => s
    | none => s) []
  (instrs.enum).foldl (fun acc p =>
    if isJumpName p.2.opName then
      match argNum? p.2 0 with
      | some targetAddr =>
        if targetAddr ∉ loopJumpTargets ∧ (assocGetNat regionsByCondIdx p.1).isNone ∧
            (assocGetNat logicals p.1).isNone then
          osetAddInt acc targetAddr
        else acc
      | none => acc
    else acc) []

def analyzeTryRegions (instrs : List Instr) : List TryRegion :=
  let collected := ((List.range instrs.length).foldl
    (fun (st : List TryRegion × List TryRegion) i =>
      match instrs.get? i with
      | none => st
      | some instr =>
        if instr.opName = "TRY_PUSH" then
          (st.1 ++ [{ tryStartIdx := i, catchAddr := argNum? instr 0 }], st.2)
        else if instr.opName = "TRY_POP" ∧ st.1 ≠ [] then
          match st.1.getLast? with
          | some region =>
            let region := { region with
              tryEndIdx := some i,
              afterTryCatchAddr :=
                if (instrs.get? (i + 1)).map Instr.opName = some "JUMP" then
                  (instrs.get? (i + 1)).bind (fun n => argNum? n 0)
                else none }
            (st.1.dropLast, st.2 ++ [region])
          | none => st
        else st) ([], [])).2
  collected.map (fun region =>
    match region.catchAddr with
    | none => region
    | some ca =>
      let catchAddrIdx := (List.range instrs.length).find? (fun i =>
        (instrs.get? i).map (fun n => (n.addr : Int)) = some ca)
      let region := { region with catchAddrIdx := catchAddrIdx }
      match catchAddrIdx, region.afterTryCatchAddr with
      | some ci, some aft =>
        { region with catchEndIdx :=
            (List.range' ci (instrs.length - ci)).find? (fun i =>
              match instrs.get? i with
              | some n => n.opName = "JUMP" ∧ argNum? n 0 = some aft
              | none => false) }
      | _, _ => region)

/-! ## Dominators, post-dominators and structured regions
(`src/lib/cfg.js`, `computeDominators` / `detectStructuredRegions`)

JavaScript `Set`s of block ids are insertion-ordered lists; every set built
below starts from the block-id order and is only filtered (order-preserving)
or extended at the back, exactly as the source's `Set` operations do.  The
source stores predecessor block objects with multiplicity; only their
dominator sets are intersected over, so the duplicate-free id list used here
yields the same intersections. -/

def cfgPredIds (instrs : List Instr) (blocks : List BBlock) (b : BBlock) : List Nat :=
  (blocks.filter (fun p => b.id ∈ blockSuccessors instrs p)).map BBlock.id

def exitBlockIds (instrs : List Instr) (blocks : List BBlock) : List Nat :=
  (blocks.filter (fun b =>
    match b.instructions.getLast? with
    | none => false
    | some last =>
      if last.opName = "JUMP" then false
      else if isCondName last.opName then false
      else if last.opName = "RETURN" then true
      else ¬ (b.endIdx + 1 < instrs.length))).map BBlock.id

def domIter (instrs : List Instr) (blocks : List BBlock) (ids : List Nat)
    (fuel : Nat) (dom : List (Nat × List Nat)) : List (Nat × List Nat) :=
  match fuel with
  | 0 => dom
  | fuel + 1 =>
    let step := blocks.foldl (fun (st : List (Nat × List Nat) × Bool) b =>
      if b.id = 0 then st
      else
        let preds := cfgPredIds instrs blocks b
        let newDom := osetAdd (ids.filter (fun id =>
          preds.all (fun p => id ∈ (assocGetNat st.1 p).getD []))) b.id
        let oldDom := (assocGetNat st.1 b.id).getD []
        if newDom.length ≠ oldDom.length ∨ ¬ (newDom.all (fun id => id ∈ oldDom)) then
          (assocSetNat st.1 b.id newDom, true)
        else st) (dom, false)
    if step.2 then domIter instrs blocks ids fuel step.1 else step.1

def postDomIter (instrs : List Instr) (blocks : List BBlock) (ids exits : List Nat)
    (fuel : Nat) (pdom : List (Nat × List Nat)) : List (Nat × List Nat) :=
  match fuel with
  | 0 => pdom
  | fuel + 1 =>
    let step := blocks.reverse.foldl (fun (st : List (Nat × List Nat) × Bool) b =>
      if b.id ∈ exits then st
      else
        let succs := blockSuccessors instrs b
        let newDom := osetAdd (ids.filter (fun id =>
          succs.all (fun p => id ∈ (assocGetNat st.1 p).getD []))) b.id
        let oldDom := (assocGetNat st.1 b.id).getD []
        if newDom.length ≠ oldDom.length ∨ ¬ (newDom.all (fun id => id ∈ oldDom)) then
          (assocSetNat st.1 b.id newDom, true)
        else st) (pdom, false)
    if step.2 then postDomIter instrs blocks ids exits fuel step.1 else step.1

/-- The idom/ipdom selection fold of `computeDominators`. -/
def chooseImmediate (domsMap : List (Nat × List Nat)) (cands : List Nat) : Option Nat :=
  cands.foldl (fun idom domId =>
    match idom with
    | none => some domId
    | some cur =>
      if cur ∈ (assocGetNat domsMap domId).getD [] then idom
      else if domId ∈ (assocGetNat domsMap cur).getD [] then some domId
      else idom) none

def computePostDominators (instrs : List Instr) (blocks : List BBlock) :
    List (Nat × List Nat) :=
  let ids := blocks.map BBlock.id
  let exits := exitBlockIds instrs blocks
  let init0 := ids.map (fun i => (i, ids))
  let init1 := exits.foldl (fun m e => assocSetNat m e [e]) init0
  postDomIter instrs blocks ids exits (blocks.length * blocks.length + 2) init1

def immediatePostDominators (instrs : List Instr) (blocks : List BBlock) :
    List (Nat × Option Nat) :=
  let pdoms := computePostDominators instrs blocks
  blocks.map (fun b =>
    (b.id, chooseImmediate pdoms
      (((assocGetNat pdoms b.id).getD []).filter (fun id => id ≠ b.id))))

/-- True/false successors of a conditional block, both required by region
detection: the jump target and the fallthrough (swapped for
`JUMP_IF_FALSE`). -/
def blockCondSuccs (instrs : List Instr) (b : BBlock) : Option (Nat × Nat) :=
  match b.instructions.getLast? with
  | none => none
  | some last =>
    if isCondName last.opName then
      match resolveTarget instrs last with
      | some t =>
        if b.endIdx + 1 < instrs.length then
          let tgt := blockIdxOf instrs t
          let fall := blockIdxOf instrs (b.endIdx + 1)
          if last.opName = "JUMP_IF_TRUE" then some (tgt, fall) else some (fall, tgt)
        else none
      | none => none
    else none

def insertByStart (b : BBlock) : List BBlock → List BBlock
  | [] => [b]
  | c :: rest => if b.startIdx < c.startIdx then b :: c :: rest
    else c :: insertByStart b rest

def sortByStart (l : List BBlock) : List BBlock :=
  l.foldl (fun acc b => insertByStart b acc) []

/-- `collectBlocksUntil`: BFS from `queue` until `endId`, skipping excluded
blocks, then sorted by `startIdx`. -/
def collectBFS (instrs : List Instr) (blocks : List BBlock) (fuel : Nat)
    (queue : List Nat) (endId : Option Nat) (exclude visited : List Nat)
    (result : List BBlock) : List BBlock :=
  match fuel with
  | 0 => result
  | fuel + 1 =>
    match queue with
    | [] => result
    | bid :: rest =>
      if bid ∈ visited ∨ some bid = endId ∨ bid ∈ exclude then
        collectBFS instrs blocks fuel rest endId exclude visited result
      else
        match blocks.find? (fun b => b.id = bid) with
        | none => collectBFS instrs blocks fuel rest endId exclude visited result
        | some b =>
          let visited := visited ++ [bid]
          let succs := (blockSuccessors instrs b).filter (fun sid =>
            sid ∉ visited ∧ some sid ≠ endId)
          collectBFS instrs blocks fuel (rest ++ succs) endId exclude visited
            (result ++ [b])

def collectBlocksUntil (instrs : List Instr) (blocks : List BBlock)
    (startId : Nat) (endId : Option Nat) (exclude : List Nat) : List BBlock :=
  if some startId = endId then []
  else sortByStart (collectBFS instrs blocks
    ((blocks.length + 1) * (blocks.length + 1) + 8) [startId] endId exclude [] [])

def detectStructuredRegions (instrs : List Instr) (blocks : List BBlock) :
    List CfgRegion :=
  let ipdoms := immediatePostDominators instrs blocks
  (blocks.foldl (fun (st : List Nat × List CfgRegion) b =>
    if b.id ∈ st.1 then st
    else match blockCondSuccs instrs b with
      | none => st
      | some (t, f) =>
        match (assocGetNat ipdoms b.id).getD none with
        | none => st
        | some ip =>
          match blocks.find? (fun m => m.id = ip) with
          | none => st
          | some merge =>
            let trueBlocks := collectBlocksUntil instrs blocks t (some merge.id) st.1
            let falseBlocks := collectBlocksUntil instrs blocks f (some merge.id) st.1
            if trueBlocks.length > 0 ∨ falseBlocks.length > 0 then
              let newRegion : CfgRegion :=
                { type := "if-else", conditionBlock := b, trueBlocks := trueBlocks,
                  falseBlocks := falseBlocks, mergeBlock := some merge,
                  startIdx := b.startIdx, endIdx := merge.startIdx }
              (st.1 ++ b.id :: (trueBlocks.map BBlock.id ++ falseBlocks.map BBlock.id),
                st.2 ++ [newRegion])
            else st) ([], [])).2

/-- `buildCFGRegions`: build the CFG, compute dominators, detect regions. -/
def buildCFGRegions (instrs : List Instr) : List BBlock × List CfgRegion :=
  if instrs.length = 0 then ([], [])
  else
    let blocks := buildBlocks instrs
    (blocks, detectStructuredRegions instrs blocks)

/-! ## Stack machine and statement emitter
(`src/emission/stackMachine.js`, `src/emission/statementEmitter.js`,
`CodeGenerator` of `src/lib/extractor.js`)

The symbolic stack is a JavaScript array: `push` appends at the end, `pop`
takes from the end (the end of the list is the top of the stack).
`stack.pop() || default` yields the default both for an empty stack
(`undefined`) and for an empty-string entry (falsy). -/

/-- `String.startsWith` over the character list (the core version is an
extern whose model does not reduce in the kernel). -/
def strStarts (s pre : String) : Bool := List.isPrefixOf pre.data s.data

def strEnds (s suf : String) : Bool := List.isSuffixOf suf.data s.data

/-- `s.slice(1, -1)`: drop the first and last character. -/
def strSlice1m1 (s : String) : String := ⟨(s.data.drop 1).dropLast⟩

/-- `Array.prototype.join(sep)` / `String.intercalate`. -/
def joinSep (sep : String) : List String → String
  | [] => ""
  | h :: t => t.foldl (fun acc x => acc ++ sep ++ x) h

def splitNlChars : List Char → List (List Char)
  | [] => [[]]
  | c :: rest =>
    let r := splitNlChars rest
    if c = Char.ofNat 10 then [] :: r
    else match r with
      | [] => [[c]]
      | h :: t => (c :: h) :: t

/-- `String.split('\n')`. -/
def splitLines (s : String) : List String := (splitNlChars s.data).map List.asString

/-- `pattern.replace(slash-regex, escaped slash)`. -/
def escSlash (s : String) : String :=
  ⟨s.data.foldr (fun c acc =>
    if c = Char.ofNat 47 then Char.ofNat 92 :: Char.ofNat 47 :: acc else c :: acc) []⟩

def squoteCh : Char := Char.ofNat 39

def jsPopOr : List String → String → String × List String
  | [], d => (d, [])
  | [x], d => (if x = "" then d else x, [])
  | x :: y :: rest, d =>
    match jsPopOr (y :: rest) d with
    | (v, r) => (v, x :: r)

/-- Plain `stack.pop()` (the popped value, `undefined` rendered as the
empty string, and the remaining stack). -/
def popPlain : List String → String × List String
  | [] => ("", [])
  | [x] => (x, [])
  | x :: y :: rest =>
    match popPlain (y :: rest) with
    | (v, r) => (v, x :: r)

/-- `stack.push(peek(stack))` for a non-empty stack. -/
def dupLast : List String → List String
  | [] => []
  | [x] => [x, x]
  | x :: y :: rest => x :: dupLast (y :: rest)

/-- Pop `argc` call arguments, each `stack.pop() || 'undefined'`, in pop
order. -/
def popArgs : List String → Nat → List String × List String
  | stack, 0 => ([], stack)
  | stack, n + 1 =>
    match jsPopOr stack "undefined" with
    | (a, s1) =>
      match popArgs s1 n with
      | (as1, s2) => (a :: as1, s2)

/-- The identifier test `/^[a-zA-Z_$][a-zA-Z0-9_$]*$/`. -/
def isIdentStart (c : Char) : Bool :=
  (97 ≤ c.toNat && c.toNat ≤ 122) || (65 ≤ c.toNat && c.toNat ≤ 90) ||
    c = Char.ofNat 95 || c = Char.ofNat 36

def isIdentChar (c : Char) : Bool := isIdentStart c || c.isDigit

def isIdentifier (str : String) : Bool :=
  match str.data with
  | [] => false
  | c :: rest => isIdentStart c && rest.all isIdentChar

def startsWithQuote (key : String) : Bool :=
  strStarts key "\"" || strStarts key squoteCh.toString

/-- Numeric-literal regex test: optional minus sign, digits, optional
fractional part, anchored at both ends. -/
def numericLit (str : String) : Bool :=
  let l := if str.data.head? = some (Char.ofNat 45) then str.data.tail else str.data
  let sp := l.span Char.isDigit
  !sp.1.isEmpty &&
    (sp.2.isEmpty ||
      (sp.2.head? = some (Char.ofNat 46) && !sp.2.tail.isEmpty &&
        sp.2.tail.all Char.isDigit))

/-- `".*"` of the remaining-stack filter: a double-quoted single-line
literal (the `.` of the source regex does not match newlines; the lifter
only splices single-line string literals). -/
def quotedLit (str : String) : Bool :=
  str.length ≥ 2 && str.data.head? = some (Char.ofNat 34) &&
    str.data.getLast? = some (Char.ofNat 34) &&
    str.data.all (fun c => c.toNat ≠ 10 && c.toNat ≠ 13 &&
      c.toNat ≠ 8232 && c.toNat ≠ 8233)

/-- `StackMachine.isTrivialValue`. -/
def isTrivialValue (expr : String) : Bool :=
  expr = "" || ["undefined", "null", "true", "false"].contains expr ||
    numericLit expr

/-- `StatementEmitter.shouldEmitCallResult`. -/
def shouldEmitCallResult (result : String) : Bool :=
  !(result = "") &&
    !(["undefined", "null", "true", "false"].contains result || numericLit result)

def getConsumeOps : List String :=
  ["ARITHMETIC_ADD", "ARITHMETIC_SUB", "ARITHMETIC_MUL", "ARITHMETIC_DIV",
   "ARITHMETIC_MOD", "COMPARISON_EQUAL", "COMPARISON_STRICT_EQUAL",
   "COMPARISON_NOT_EQUAL", "COMPARISON_STRICT_NOT_EQUAL", "COMPARISON_LESS",
   "COMPARISON_LESS_OR_EQUAL", "COMPARISON_GREATER", "COMPARISON_GREATER_OR_EQUAL",
   "BINARY_BIT_AND", "BINARY_BIT_OR", "BINARY_BIT_XOR",
   "GET_PROPERTY", "SET_PROPERTY", "CALL_METHOD",
   "STORE_VARIABLE", "ASSIGN_VARIABLE"]

def getCallOps : List String := ["CALL_FUNCTION", "CALL_METHOD", "CONSTRUCT"]

/-- JSON.stringify string quoting (the escapes of `QuoteJSONString`). -/
def hexDigitCh (n : Nat) : Char :=
  if n < 10 then Char.ofNat (48 + n) else Char.ofNat (87 + n)

def jsonEscapeChar (c : Char) : String :=
  if c = Char.ofNat 34 then "\\\"" 
  else if c = Char.ofNat 92 then "\\\\"
  else if c = Char.ofNat 8 then "\\b"
  else if c = Char.ofNat 12 then "\\f"
  else if c = Char.ofNat 10 then "\\n"
  else if c = Char.ofNat 13 then "\\r"
  else if c = Char.ofNat 9 then "\\t"
  else if c.toNat < 32 then
    "\\u00" ++ (hexDigitCh (c.toNat / 16)).toString ++ (hexDigitCh (c.toNat % 16)).toString
  else c.toString

def jsonStringify (str : String) : String :=
  "\"" ++ String.join (str.data.map jsonEscapeChar) ++ "\""

/-- `cleanStringValue`: non-strings become `''`; surrounding quotes are
stripped. -/
def cleanStringValue (value : Option String) : String :=
  match value with
  | none => ""
  | some v =>
    if (strStarts v "\"" && strEnds v "\"") ||
        (strStarts v squoteCh.toString && strEnds v squoteCh.toString) then
      strSlice1m1 v
    else v

/-- `StackMachine.buildBinaryExpression` (defaults `'0'`, `'0'` at the
source's parameter list; call sites pass them explicitly here). -/
def buildBinaryExpression (stack : List String) (operator : String)
    (swapped : Bool) (leftDefault rightDefault : String) : List String :=
  match jsPopOr stack leftDefault with
  | (first, s1) =>
    match jsPopOr s1 rightDefault with
    | (second, s2) =>
      if swapped then
        s2 ++ ["(" ++ second ++ " " ++ operator ++ " " ++ first ++ ")"]
      else
        s2 ++ ["(" ++ first ++ " " ++ operator ++ " " ++ second ++ ")"]

def buildUnaryExpression (stack : List String) (operator : String)
    (defaultVal : String) : List String :=
  match jsPopOr stack defaultVal with
  | (a, s1) => s1 ++ ["(" ++ operator ++ a ++ ")"]

def buildPropertyAccess (stack : List String) : List String :=
  match jsPopOr stack "prop" with
  | (key, s1) =>
    match jsPopOr s1 "obj" with
    | (obj, s2) =>
      let propName := if startsWithQuote key then strSlice1m1 key else key
      if isIdentifier propName && key ≠ propName then
        s2 ++ [obj ++ "." ++ propName]
      else
        s2 ++ [obj ++ "[" ++ key ++ "]"]

def buildMethodCall (stack : List String) (argc : Nat) : List String :=
  match jsPopOr stack "method" with
  | (key, s1) =>
    match jsPopOr s1 "obj" with
    | (obj, s2) =>
      match popArgs s2 argc with
      | (args, s3) =>
        let methodName := if startsWithQuote key then strSlice1m1 key else key
        if isIdentifier methodName then
          s3 ++ [obj ++ "." ++ methodName ++ "(" ++ joinSep ", " args ++ ")"]
        else
          s3 ++ [obj ++ "[" ++ key ++ "](" ++ joinSep ", " args ++ ")"]

def buildFunctionCall (stack : List String) (argc : Nat) : List String :=
  match jsPopOr stack "fn" with
  | (fn, s1) =>
    match popArgs s1 argc with
    | (args, s2) => s2 ++ [fn ++ "(" ++ joinSep ", " args ++ ")"]

def buildConstruct (stack : List String) (argc : Nat) : List String :=
  match jsPopOr stack "Object" with
  | (cls, s1) =>
    match popArgs s1 argc with
    | (args, s2) => s2 ++ ["new " ++ cls ++ "(" ++ joinSep ", " args ++ ")"]

def buildArray (stack : List String) (length : Nat) : List String :=
  match popArgs stack length with
  | (args, s1) => s1 ++ ["[" ++ joinSep ", " args ++ "]"]

/-- One `BUILD_OBJECT` property: pop value then key, dot-form the key when
it is an identifier (after quote stripping). -/
def popObjectProps : List String → Nat → List String × List String
  | stack, 0 => ([], stack)
  | stack, n + 1 =>
    match jsPopOr stack "undefined" with
    | (value, s1) =>
      match jsPopOr s1 ("\"key\"") with
      | (key, s2) =>
        let keyStr := if startsWithQuote key then strSlice1m1 key else key
        let entry := if isIdentifier keyStr then keyStr ++ ": " ++ value
          else "[" ++ key ++ "]: " ++ value
        match popObjectProps s2 n with
        | (props, s3) => (entry :: props, s3)

def buildObject (stack : List String) (length : Nat) : List String :=
  match popObjectProps stack length with
  | (props, s1) => s1 ++ ["\x7b " ++ joinSep ", " props ++ " \x7d"]

def buildGlobalPropAccess (stack : List String) : List String :=
  match jsPopOr stack "undefined" with
  | (name, s1) =>
    if startsWithQuote name then
      let propName := strSlice1m1 name
      if isIdentifier propName then s1 ++ [propName]
      else s1 ++ ["globalThis[" ++ name ++ "]"]
    else s1 ++ ["globalThis[" ++ name ++ "]"]

/-- JavaScript truthiness of an operand value (doubles do not reach the
truthiness positions used by the lifter). -/
def truthy : Option JVal → Bool
  | some (.num n) => n ≠ 0
  | some (.boolv b) => b
  | some (.str str) => str ≠ ""
  | some (.dbl _) => true
  | none => false

/-- `instr.args[k]?.value` coerced to a natural count (`?? 0`; a negative
count runs the pop loop zero times, like its JavaScript counterpart). -/
def argCount (instr : Instr) (k : Nat) : Nat :=
  match argNum? instr k with
  | some n => n.toNat
  | none => 0

/-! ## Code generator state and statement emission
(`StatementEmitter` of `src/emission/statementEmitter.js`, `CodeGenerator`
of `src/lib/extractor.js`) -/

/-- `String(value)` on an operand value; doubles are rendered by the
ambient `showDouble` oracle (IEEE-754 double-to-string conversion). -/
def jvalString (showDouble : List Nat → String) : JVal → String
  | .num n => Int.repr n
  | .boolv b => if b then "true" else "false"
  | .str s => s
  | .dbl bytes => showDouble bytes

/-- `StackMachine.formatNumber`. -/
def formatNumber (showDouble : List Nat → String) (instr : Instr) : String :=
  match argVal? instr 0 with
  | some v => jvalString showDouble v
  | none => "0"

/-- `StackMachine.formatBoolean`. -/
def formatBoolean (instr : Instr) : String :=
  if truthy (argVal? instr 0) then "true" else "false"

/-- `StackMachine.formatString`: `stringValue || strings[args[0]?.value]
|| ''`, JSON-quoted. A non-numeric or negative index misses the table. -/
def formatString (strings : List String) (instr : Instr) : String :=
  let fromTable : Option String :=
    match argVal? instr 0 with
    | some (.num n) => if n < 0 then none else strings.get? n.toNat
    | _ => none
  let sv := instr.stringValue.getD ""
  jsonStringify (if sv ≠ "" then sv else fromTable.getD "")

def assignOpMap : List (String × String) :=
  [("ADD_ASSIGN_VARIABLE", "+="), ("SUB_ASSIGN_VARIABLE", "-="),
   ("MUL_ASSIGN_VARIABLE", "*="), ("DIV_ASSIGN_VARIABLE", "/="),
   ("MOD_ASSIGN_VARIABLE", "%="), ("BIT_SHIFT_LEFT_ASSIGN_VARIABLE", "<<="),
   ("BIT_SHIFT_RIGHT_ASSIGN_VAIRABLE", ">>="),
   ("UNSIGNED_BIT_SHIFT_RIGHT_ASSIGN_VARIABLE", ">>>="),
   ("BIT_XOR_ASSIGN_VARIABLE", "^="), ("BIT_AND_ASSIGN_VARIABLE", "&="),
   ("BIT_OR_ASSIGN_VARIABLE", "|=")]

/-- `StackMachine.buildUpdateExpression` (threads the variable-name
state). -/
def buildUpdateExpression (stack : List String) (instr : Instr)
    (isPlus : Bool) (vars : VarState) : List String × VarState :=
  let isPre := truthy (argVal? instr 0)
  match getVarName (argNum? instr 1) (argNum? instr 2) vars with
  | (varName, vars2) =>
    let op := if isPlus then "++" else "--"
    (stack ++ [if isPre then "(" ++ op ++ varName ++ ")"
      else "(" ++ varName ++ op ++ ")"], vars2)

def buildPropUpdateExpression (stack : List String) (instr : Instr)
    (isPlus : Bool) (vars : VarState) : List String × VarState :=
  match jsPopOr stack "prop" with
  | (propv, s1) =>
    let isPre := truthy (argVal? instr 0)
    match getVarName (argNum? instr 1) (argNum? instr 2) vars with
    | (varName, vars2) =>
      let op := if isPlus then "++" else "--"
      (s1 ++ [if isPre then "(" ++ op ++ varName ++ "[" ++ propv ++ "])"
        else "(" ++ varName ++ "[" ++ propv ++ "]" ++ op ++ ")"], vars2)

def buildComplexPropUpdateExpression (stack : List String) (instr : Instr)
    (isPlus : Bool) : List String :=
  match jsPopOr stack "prop" with
  | (propv, s1) =>
    match jsPopOr s1 "obj" with
    | (obj, s2) =>
      let isPre := truthy (argVal? instr 0)
      let op := if isPlus then "++" else "--"
      s2 ++ [if isPre then "(" ++ op ++ obj ++ "[" ++ propv ++ "])"
        else "(" ++ obj ++ "[" ++ propv ++ "]" ++ op ++ ")"]

/-- `StackMachine.buildAssignmentExpression`. -/
def buildAssignmentExpression (stack : List String) (instr : Instr)
    (vars : VarState) : List String × VarState :=
  match jsPopOr stack "undefined" with
  | (value, s1) =>
    let isOperation := truthy (argVal? instr 0)
    match getVarName (argNum? instr 1) (argNum? instr 2) vars with
    | (varName, vars2) =>
      if isOperation && (instr.args.get? 3).isSome then
        let op := match argVal? instr 3 with
          | some (.str a) => ((assignOpMap.find? (fun p => p.1 = a)).map Prod.snd).getD "="
          | _ => "="
        (s1 ++ ["(" ++ varName ++ " " ++ op ++ " " ++ value ++ ")"], vars2)
      else (s1 ++ ["(" ++ varName ++ " = " ++ value ++ ")"], vars2)

/-- The mutable `CodeGenerator` fields touched during emission. -/
structure EmitState where
  vars : VarState
  output : List String
  indent : Int
  addressToLabel : List (Option Int × String)
  pendingReturn : Option String
deriving DecidableEq, Repr

/-- `'  '.repeat(indent)`. (JavaScript throws a RangeError on a negative
count; the lifter only reaches nonnegative depths on well-formed input, and
a negative depth renders as no indentation here.) -/
def indentStr (indent : Int) : String :=
  String.join (List.replicate indent.toNat "  ")

/-- `StatementEmitter.emit`. -/
def emitLine : EmitState → String → EmitState
  | ⟨v, o, ind, al, pr⟩, line => ⟨v, o ++ [indentStr ind ++ line], ind, al, pr⟩

def setVars : EmitState → VarState → EmitState
  | ⟨_, o, ind, al, pr⟩, v => ⟨v, o, ind, al, pr⟩

def setPendingReturn : EmitState → Option String → EmitState
  | ⟨v, o, ind, al, _⟩, pr => ⟨v, o, ind, al, pr⟩

def bumpIndent : EmitState → Int → EmitState
  | ⟨v, o, ind, al, pr⟩, d => ⟨v, o, ind + d, al, pr⟩

def emitExpr (st : EmitState) (expr : String) : EmitState :=
  emitLine st (expr ++ ";")

def emitVariableDeclaration (st : EmitState) (varName value : String) : EmitState :=
  emitLine st ("var " ++ varName ++ " = " ++ value ++ ";")

def emitPropertyAssignment (st : EmitState) (obj key value : String) : EmitState :=
  let propName := if startsWithQuote key then strSlice1m1 key else key
  if isIdentifier propName && key ≠ propName then
    emitLine st (obj ++ "." ++ propName ++ " = " ++ value ++ ";")
  else
    emitLine st (obj ++ "[" ++ key ++ "] = " ++ value ++ ";")

def emitIfStart (st : EmitState) (condition : String) : EmitState :=
  bumpIndent (emitLine st ("if (" ++ condition ++ ") \x7b")) 1

def emitWhileStart (st : EmitState) (condition : String) : EmitState :=
  bumpIndent (emitLine st ("while (" ++ condition ++ ") \x7b")) 1

def emitWhileEnd (st : EmitState) : EmitState :=
  emitLine (bumpIndent st (-1)) "\x7d"

def emitThrow (st : EmitState) (err : String) : EmitState :=
  emitLine st ("throw " ++ err ++ ";")

def emitDebugger (st : EmitState) : EmitState :=
  emitLine st "debugger;"

def emitLabel (st : EmitState) (label : String) : EmitState :=
  emitLine st (label ++ ":")

def emitConditionalJump (st : EmitState) (condition label : String)
    (isTrue : Bool) : EmitState :=
  if isTrue then
    emitLine st ("if (" ++ condition ++ ") \x7b /* goto " ++ label ++ " */ \x7d")
  else
    emitLine st ("if (!(" ++ condition ++ ")) \x7b /* goto " ++ label ++ " */ \x7d")

def emitErr (st : EmitState) (message : String) : EmitState :=
  emitLine st ("/* " ++ message ++ " */")

/-- `CodeGenerator.generateLabel`: memoized `label_<addr>` (a jump with a
missing operand keys the map on `undefined`). -/
def generateLabel : EmitState → Option Int → String × EmitState
  | ⟨v, o, ind, al, pr⟩, addr =>
    match al.find? (fun p => p.1 = addr) with
    | some p => (p.2, ⟨v, o, ind, al, pr⟩)
    | none =>
      let l := "label_" ++ (match addr with
        | some n => Int.repr n
        | none => "undefined")
      (l, ⟨v, o, ind, al ++ [(addr, l)], pr⟩)

/-- The immutable configuration of one `CodeGenerator` (constructor
arguments); `inflate` and `showDouble` stand for the external pako codec
and IEEE-754 double rendering. -/
structure CGConfig where
  instructions : List Instr
  strings : List String
  opcodeMap : List (Nat × String)
  returnOpcode : Option Nat := none
  swappedOpcodes : List Nat := []
  inflate : List Nat → Option (List Nat)
  showDouble : List Nat → String

/-- The lookup structures `generate` precomputes before its main loop. -/
structure GenMaps where
  catchBlockStarts : List (Nat × TryRegion)
  catchBlockEnds : List Nat
  skipJumpsAfterTry : List Nat
  loopsByInitJump : List (Nat × LoopRec)
  loopsByCondJump : List (Nat × LoopRec)
  loopsByCondStart : List (Nat × LoopRec)
  regionsByCondIdx : List (Nat × CfgRegion)
  ternaries : List (Nat × CfgRegion)
  logicals : List (Nat × LogicalRec)
  usedLabels : List Int

/-- The try-region maps built at the top of `generate`. -/
def catchMaps (instrs : List Instr) (tryRegions : List TryRegion) :
    List (Nat × TryRegion) × List Nat × List Nat :=
  tryRegions.foldl (fun (acc : List (Nat × TryRegion) × List Nat × List Nat) region =>
    let starts := match region.catchAddrIdx with
      | some k => assocSetNat acc.1 k region
      | none => acc.1
    let ends := match region.catchEndIdx with
      | some k => osetAdd acc.2.1 k
      | none => acc.2.1
    let skips := match region.tryEndIdx with
      | some k =>
        match instrs.get? (k + 1) with
        | some ni => if ni.opName = "JUMP" then osetAdd acc.2.2 (k + 1) else acc.2.2
        | none => acc.2.2
      | none => acc.2.2
    (starts, ends, skips)) ([], [], [])

/-- `stack.pop()` of a pending call result plus its conditional emission. -/
def popEmitCall (stack : List String) (st : EmitState) : List String × EmitState :=
  match popPlain stack with
  | (callResult, rest) =>
    if shouldEmitCallResult callResult then (rest, emitExpr st callResult)
    else (rest, st)

/-- The final drain of `generate`: pop everything, emitting what does not
start with `undefined` or `null`. -/
def drainStack (stack : List String) (st : EmitState) : EmitState :=
  stack.reverse.foldl (fun st expr =>
    if expr ≠ "" && !(strStarts expr "undefined") && !(strStarts expr "null") then
      emitExpr st expr
    else st) st

/-- The loop-stack leftover emission (ascending order, trivial values
filtered). -/
def emitLoopLeftovers (loopStack : List String) (st : EmitState) : EmitState :=
  loopStack.foldl (fun st expr =>
    if expr ≠ "" && !(isTrivialValue expr) then emitExpr st expr else st) st

/-- The literal filter of `emitRemainingStack`. -/
def remStackLit (expr : String) : Bool :=
  ["undefined", "null", "true", "false"].contains expr ||
    numericLit expr || quotedLit expr

def emitRemainingAux : Nat → List String → Nat → EmitState → EmitState
  | 0, _, _, st => st
  | n + 1, branchStack, parentLen, st =>
    if branchStack.length > parentLen then
      match popPlain branchStack with
      | (expr, rest) =>
        emitRemainingAux n rest parentLen
          (if expr ≠ "" && !(remStackLit expr) then emitExpr st expr else st)
    else st

/-- `CodeGenerator.emitRemainingStack`. -/
def emitRemaining (branchStack : List String) (parentLen : Nat)
    (st : EmitState) : EmitState :=
  emitRemainingAux branchStack.length branchStack parentLen st

/-- The binary-operator dispatch of `processInstruction` as data: opName,
operator, left default, right default (the switch passes `'0','0'` for
arithmetic/comparison/bitwise, and custom defaults for `in` and
`instanceof`). -/
def binaryOpTable : List (String × String × String × String) :=
  [("ARITHMETIC_ADD", "+", "0", "0"), ("ARITHMETIC_SUB", "-", "0", "0"),
   ("ARITHMETIC_MUL", "*", "0", "0"), ("ARITHMETIC_DIV", "/", "0", "0"),
   ("ARITHMETIC_MOD", "%", "0", "0"), ("COMPARISON_EQUAL", "==", "0", "0"),
   ("COMPARISON_STRICT_EQUAL", "===", "0", "0"),
   ("COMPARISON_NOT_EQUAL", "!=", "0", "0"),
   ("COMPARISON_STRICT_NOT_EQUAL", "!==", "0", "0"),
   ("COMPARISON_LESS", "<", "0", "0"), ("COMPARISON_LESS_OR_EQUAL", "<=", "0", "0"),
   ("COMPARISON_GREATER", ">", "0", "0"),
   ("COMPARISON_GREATER_OR_EQUAL", ">=", "0", "0"),
   ("BINARY_BIT_SHIFT_LEFT", "<<", "0", "0"),
   ("BINARY_BIT_SHIFT_RIGHT", ">>", "0", "0"),
   ("BINARY_UNSIGNED_BIT_SHIFT_RIGHT", ">>>", "0", "0"),
   ("BINARY_BIT_XOR", "^", "0", "0"), ("BINARY_BIT_AND", "&", "0", "0"),
   ("BINARY_BIT_OR", "|", "0", "0"),
   ("BINARY_IN", "in", "\"\"", "\x7b\x7d"),
   ("BINARY_INSTANCEOF", "instanceof", "null", "Object")]

/-- Modelled from the spec: the statement emitter opens try blocks (the
method is referenced by `processInstruction` but missing from the emitter
source in this snapshot; the spec's emission grammar gives the brace
discipline used by the catch handling in `generate`). -/
def emitTryStartE (st : EmitState) : EmitState :=
  bumpIndent (emitLine st "try \x7b") 1

/-- Modelled from the spec: close the try, open `catch (<errVar>)`. -/
def emitCatchStartE (st : EmitState) (errVarName : String) : EmitState :=
  bumpIndent (emitLine (bumpIndent st (-1))
    ("\x7d catch (" ++ errVarName ++ ") \x7b")) 1

/-- Modelled from the spec: close the previous section, open `finally`. -/
def emitFinallyStartE (st : EmitState) : EmitState :=
  bumpIndent (emitLine (bumpIndent st (-1)) "\x7d finally \x7b") 1

/-! The decompilation pipeline of `CodeGenerator.generate` /
`processBlockSequence` / `processInstruction` /
`StatementEmitter.buildFunctionBody`, as one mutual recursion structural in
an explicit fuel (the JavaScript can loop forever on adversarial jump
tables; every recursive call debits one unit). Out-of-range instruction
indices are skipped (the detected regions only produce in-range indices). -/

set_option maxHeartbeats 3200000 in
mutual

/-- `CodeGenerator.generate` (fresh generator with the given starting
`varCounter` and `indent`): returns the joined output and the final
`varCounter`. -/
def generateF : Nat → CGConfig → Nat → Int → String × Nat
  | 0, _, varCounter, _ => ("", varCounter)
  | fuel + 1, cfg, varCounter, indent0 =>
    let instrs := cfg.instructions
    let loops := detectLoops instrs
    let regions := (buildCFGRegions instrs).2
    match buildLoopMaps loops with
    | (byInit, byCond, byStart) =>
      let regionsByCondIdx := buildRegionMap regions loops
      let ternaries := (detectTernaryExpressions regionsByCondIdx).map
        (fun p => (p.1, p.2.1))
      let logicals := detectLogicalOperators instrs
      let usedLabels := findUsedLabels instrs loops regionsByCondIdx logicals
      match catchMaps instrs (analyzeTryRegions instrs) with
      | (cbs, cbe, sjt) =>
        let gm : GenMaps :=
          { catchBlockStarts := cbs, catchBlockEnds := cbe,
            skipJumpsAfterTry := sjt, loopsByInitJump := byInit,
            loopsByCondJump := byCond, loopsByCondStart := byStart,
            regionsByCondIdx := regionsByCondIdx, ternaries := ternaries,
            logicals := logicals, usedLabels := usedLabels }
        match genLoop fuel cfg gm 0 [] ⟨⟨varCounter, []⟩, [], indent0, [], none⟩ with
        | (stack, st) =>
          match drainStack stack st with
          | ⟨v, o, ind, al, pr⟩ =>
            match pr with
            | some line =>
              match emitLine ⟨v, o, ind, al, some line⟩ line with
              | ⟨v2, o2, _, _, _⟩ => (joinSep "\n" o2, v2.varCounter)
            | none => (joinSep "\n" o, v.varCounter)
termination_by structural fuel => fuel

/-- The main `while (i < this.instructions.length)` loop of `generate`. -/
def genLoop : Nat → CGConfig → GenMaps → Nat → List String → EmitState →
    List String × EmitState
  | 0, _, _, _, stack, st => (stack, st)
  | fuel + 1, cfg, gm, i, stack, st =>
    match cfg.instructions.get? i with
    | none => (stack, st)
    | some instr =>
      match (if (assocGetNat gm.catchBlockStarts i).isSome then
          (stack ++ ["err"],
            bumpIndent (emitLine (bumpIndent st (-1)) "\x7d catch (err) \x7b") 1)
        else (stack, st)) with
      | (stack, st) =>
        if gm.skipJumpsAfterTry.contains i then
          genLoop fuel cfg gm (i + 1) stack st
        else if gm.catchBlockEnds.contains i then
          genLoop fuel cfg gm (i + 1) stack (emitLine (bumpIndent st (-1)) "\x7d")
        else match assocGetNat gm.loopsByInitJump i with
        | some loop =>
          match processCondRange fuel cfg loop.condStartIdx loop.condEndIdx [] st with
          | (condStack, st) =>
            match jsPopOr condStack "true" with
            | (condition, _) =>
              let st := emitWhileStart st condition
              match processLoopBody fuel cfg loop.bodyStartIdx loop.condStartIdx stack st with
              | (loopStack, st) =>
                genLoop fuel cfg gm (loop.condJumpIdx + 1) stack
                  (emitWhileEnd (emitLoopLeftovers loopStack st))
        | none => match assocGetNat gm.loopsByCondJump i with
        | some _ => genLoop fuel cfg gm (i + 1) stack st
        | none => match assocGetNat gm.loopsByCondStart i with
        | some loop =>
          match processCondRange fuel cfg loop.condStartIdx loop.condEndIdx [] st with
          | (condStack, st) =>
            match jsPopOr condStack "true" with
            | (cond0, _) =>
              let condition := if loop.isTrue then "!(" ++ cond0 ++ ")" else cond0
              let st := emitWhileStart st condition
              match (match loop.bodyEndIdx with
                | some e => processLoopBody fuel cfg loop.bodyStartIdx (e + 1) stack st
                | none => (stack, st)) with
              | (loopStack, st) =>
                let st := emitWhileEnd (emitLoopLeftovers loopStack st)
                match loop.exitIdx with
                | some e => genLoop fuel cfg gm e stack st
                | none => (stack, st)
        | none => match assocGetNat gm.logicals i with
        | some lg =>
          match jsPopOr stack.dropLast "true" with
          | (left, base) =>
            match processRangePlain fuel cfg lg.rightStartIdx lg.rightEndIdx base st with
            | (rightStack, st) =>
              match jsPopOr rightStack "undefined" with
              | (right, _) =>
                genLoop fuel cfg gm lg.targetIdx
                  (base ++ ["(" ++ left ++ " " ++ lg.operator ++ " " ++ right ++ ")"]) st
        | none => match assocGetNat gm.ternaries i with
        | some tern =>
          match jsPopOr stack "true" with
          | (condition, base) =>
            match processSeqBlocks fuel cfg gm tern.trueBlocks (-1) true base st with
            | (_, trueStack, st) =>
              match jsPopOr trueStack "undefined" with
              | (consequent, _) =>
                match processSeqBlocks fuel cfg gm tern.falseBlocks (-1) true base st with
                | (_, falseStack, st) =>
                  match jsPopOr falseStack "undefined" with
                  | (alternate, _) =>
                    let ni := match tern.mergeBlock with
                      | some mb => mb.startIdx
                      | none => tern.endIdx
                    genLoop fuel cfg gm ni
                      (base ++ ["(" ++ condition ++ " ? " ++ consequent ++ " : " ++
                        alternate ++ ")"]) st
        | none =>
          match (match assocGetNat gm.regionsByCondIdx i with
            | some region =>
              if region.trueBlocks.length > 0 || region.falseBlocks.length > 0 then
                some region
              else none
            | none => none) with
          | some region =>
            match jsPopOr stack "true" with
            | (condition, base) =>
              let st := emitIfStart st condition
              let st := if region.trueBlocks.length > 0 then
                  match processSeqBlocks fuel cfg gm region.trueBlocks (-1) false base st with
                  | (_, trueStack, st) => emitRemaining trueStack base.length st
                else st
              let st := bumpIndent st (-1)
              let st := if region.falseBlocks.length > 0 then
                  match processSeqBlocks fuel cfg gm region.falseBlocks (-1) false base
                      (bumpIndent (emitLine st "\x7d else \x7b") 1) with
                  | (_, falseStack, st) =>
                    bumpIndent (emitRemaining falseStack base.length st) (-1)
                else st
              let st := emitLine st "\x7d"
              let ni := match region.mergeBlock with
                | some mb => mb.startIdx
                | none => region.endIdx
              genLoop fuel cfg gm ni base st
          | none =>
            let st := if gm.usedLabels.contains (instr.addr : Int) then
                match generateLabel st (some (instr.addr : Int)) with
                | (l, st) => emitLabel st l
              else st
            match processInstrF fuel cfg instr stack st with
            | (stack, st) =>
              match (if getCallOps.contains instr.opName && stack.length > 0 then
                  match cfg.instructions.get? (i + 1) with
                  | some n2 =>
                    if getConsumeOps.contains n2.opName then (stack, st)
                    else popEmitCall stack st
                  | none => popEmitCall stack st
                else (stack, st)) with
              | (stack, st) => genLoop fuel cfg gm (i + 1) stack st
termination_by structural fuel => fuel

/-- The condition-range evaluation of the loop branches (skips the
conditional jumps themselves). -/
def processCondRange : Nat → CGConfig → Nat → Nat → List String → EmitState →
    List String × EmitState
  | 0, _, _, _, condStack, st => (condStack, st)
  | fuel + 1, cfg, c, stop, condStack, st =>
    if c ≤ stop then
      match cfg.instructions.get? c with
      | none => processCondRange fuel cfg (c + 1) stop condStack st
      | some ci =>
        if isCondName ci.opName then processCondRange fuel cfg (c + 1) stop condStack st
        else
          match processInstrF fuel cfg ci condStack st with
          | (condStack, st) => processCondRange fuel cfg (c + 1) stop condStack st
    else (condStack, st)
termination_by structural fuel => fuel

/-- The loop-body walk (`b` from start while `b < stop`) with pending
call-result emission; V1 passes `stop = condStartIdx`, V2 passes
`stop = bodyEndIdx + 1`, making both boundary tests `b + 1 ≥ stop`. -/
def processLoopBody : Nat → CGConfig → Nat → Nat → List String → EmitState →
    List String × EmitState
  | 0, _, _, _, loopStack, st => (loopStack, st)
  | fuel + 1, cfg, b, stop, loopStack, st =>
    if b < stop then
      match cfg.instructions.get? b with
      | none => processLoopBody fuel cfg (b + 1) stop loopStack st
      | some bi =>
        match processInstrF fuel cfg bi loopStack st with
        | (loopStack, st) =>
          match (if getCallOps.contains bi.opName && loopStack.length > 0 then
              let noConsume := match cfg.instructions.get? (b + 1) with
                | some n2 => !(getConsumeOps.contains n2.opName)
                | none => true
              if noConsume || b + 1 ≥ stop then popEmitCall loopStack st
              else (loopStack, st)
            else (loopStack, st)) with
          | (loopStack, st) => processLoopBody fuel cfg (b + 1) stop loopStack st
    else (loopStack, st)
termination_by structural fuel => fuel

/-- The right-operand range of a logical region (plain
`processInstruction` calls). -/
def processRangePlain : Nat → CGConfig → Nat → Nat → List String → EmitState →
    List String × EmitState
  | 0, _, _, _, stack, st => (stack, st)
  | fuel + 1, cfg, j, stop, stack, st =>
    if j ≤ stop then
      match cfg.instructions.get? j with
      | none => processRangePlain fuel cfg (j + 1) stop stack st
      | some ij =>
        match processInstrF fuel cfg ij stack st with
        | (stack, st) => processRangePlain fuel cfg (j + 1) stop stack st
    else (stack, st)
termination_by structural fuel => fuel

/-- `processBlockSequence`: the block list walk (`skipUntil` persists
across blocks). -/
def processSeqBlocks : Nat → CGConfig → GenMaps → List BBlock → Int → Bool →
    List String → EmitState → Int × List String × EmitState
  | 0, _, _, _, skipUntil, _, blockStack, st => (skipUntil, blockStack, st)
  | _ + 1, _, _, [], skipUntil, _, blockStack, st => (skipUntil, blockStack, st)
  | fuel + 1, cfg, gm, block :: rest, skipUntil, isTern, blockStack, st =>
    match processSeqInner fuel cfg gm block block.startIdx skipUntil isTern blockStack st with
    | (skipUntil, blockStack, st) =>
      processSeqBlocks fuel cfg gm rest skipUntil isTern blockStack st
termination_by structural fuel => fuel

/-- The inner instruction walk of `processBlockSequence` over one block. -/
def processSeqInner : Nat → CGConfig → GenMaps → BBlock → Nat → Int → Bool →
    List String → EmitState → Int × List String × EmitState
  | 0, _, _, _, _, skipUntil, _, blockStack, st => (skipUntil, blockStack, st)
  | fuel + 1, cfg, gm, block, b, skipUntil, isTern, blockStack, st =>
    if b ≤ block.endIdx then
      if (b : Int) < skipUntil then
        processSeqInner fuel cfg gm block (b + 1) skipUntil isTern blockStack st
      else match cfg.instructions.get? b with
      | none => processSeqInner fuel cfg gm block (b + 1) skipUntil isTern blockStack st
      | some bi =>
        if bi.opName = "JUMP" && b = block.endIdx then
          processSeqInner fuel cfg gm block (b + 1) skipUntil isTern blockStack st
        else match assocGetNat gm.ternaries b with
        | some tern =>
          match jsPopOr blockStack "true" with
          | (condition, base) =>
            match processSeqBlocks fuel cfg gm tern.trueBlocks (-1) true base st with
            | (_, trueStack, st) =>
              match jsPopOr trueStack "undefined" with
              | (consequent, _) =>
                match processSeqBlocks fuel cfg gm tern.falseBlocks (-1) true base st with
                | (_, falseStack, st) =>
                  match jsPopOr falseStack "undefined" with
                  | (alternate, _) =>
                    let su := match tern.mergeBlock with
                      | some mb => (mb.startIdx : Int)
                      | none => (tern.endIdx : Int)
                    processSeqInner fuel cfg gm block (b + 1) su isTern
                      (base ++ ["(" ++ condition ++ " ? " ++ consequent ++ " : " ++
                        alternate ++ ")"]) st
        | none => match assocGetNat gm.logicals b with
        | some lg =>
          match jsPopOr blockStack.dropLast "true" with
          | (left, base) =>
            match processRangePlain fuel cfg lg.rightStartIdx lg.rightEndIdx base st with
            | (rightStack, st) =>
              match jsPopOr rightStack "undefined" with
              | (right, _) =>
                processSeqInner fuel cfg gm block (b + 1) (lg.targetIdx : Int) isTern
                  (base ++ ["(" ++ left ++ " " ++ lg.operator ++ " " ++ right ++ ")"]) st
        | none =>
          match (match assocGetNat gm.regionsByCondIdx b with
            | some region =>
              if region.trueBlocks.length > 0 || region.falseBlocks.length > 0 then
                some region
              else none
            | none => none) with
          | some region =>
            match jsPopOr blockStack "true" with
            | (condition, base) =>
              let st := emitIfStart st condition
              let st := if region.trueBlocks.length > 0 then
                  match processSeqBlocks fuel cfg gm region.trueBlocks (-1) false base st with
                  | (_, trueStack, st) => emitRemaining trueStack base.length st
                else st
              let st := bumpIndent st (-1)
              let st := if region.falseBlocks.length > 0 then
                  match processSeqBlocks fuel cfg gm region.falseBlocks (-1) false base
                      (bumpIndent (emitLine st "\x7d else \x7b") 1) with
                  | (_, falseStack, st) =>
                    bumpIndent (emitRemaining falseStack base.length st) (-1)
                else st
              let st := emitLine st "\x7d"
              let su := match region.mergeBlock with
                | some mb => (mb.startIdx : Int)
                | none => (region.endIdx : Int)
              processSeqInner fuel cfg gm block (b + 1) su isTern base st
          | none =>
            match processInstrF fuel cfg bi blockStack st with
            | (blockStack, st) =>
              match (if !isTern && getCallOps.contains bi.opName && blockStack.length > 0 then
                  match cfg.instructions.get? (b + 1) with
                  | some n2 =>
                    if getConsumeOps.contains n2.opName then (blockStack, st)
                    else popEmitCall blockStack st
                  | none => popEmitCall blockStack st
                else (blockStack, st)) with
              | (blockStack, st) =>
                processSeqInner fuel cfg gm block (b + 1) skipUntil isTern blockStack st
    else (skipUntil, blockStack, st)
termination_by structural fuel => fuel

/-- `CodeGenerator.processInstruction`: the opcode-name switch. -/
def processInstrF : Nat → CGConfig → Instr → List String → EmitState →
    List String × EmitState
  | 0, _, _, stack, st => (stack, st)
  | fuel + 1, cfg, instr, stack, st =>
    let swapped := cfg.swappedOpcodes.contains instr.opcode
    let opn := instr.opName
    if opn = "STACK_PUSH_STRING" then (stack ++ [formatString cfg.strings instr], st)
    else if opn = "STACK_PUSH_DWORD" || opn = "STACK_PUSH_DOUBLE" then
      (stack ++ [formatNumber cfg.showDouble instr], st)
    else if opn = "STACK_PUSH_BOOLEAN" then (stack ++ [formatBoolean instr], st)
    else if opn = "STACK_PUSH_NULL" then (stack ++ ["null"], st)
    else if opn = "STACK_PUSH_UNDEFINED" then (stack ++ ["undefined"], st)
    else if opn = "STACK_PUSH_DUPLICATE" then (dupLast stack, st)
    else if opn = "STACK_POP" then
      match stack with
      | [] => (stack, st)
      | _ :: _ =>
        match popPlain stack with
        | (expr, rest) =>
          (rest, if isTrivialValue expr then st else emitExpr st expr)
    else if opn = "ARITHMETIC_ADD" then (buildBinaryExpression stack "+" swapped "0" "0", st)
    else if opn = "ARITHMETIC_SUB" then (buildBinaryExpression stack "-" swapped "0" "0", st)
    else if opn = "ARITHMETIC_MUL" then (buildBinaryExpression stack "*" swapped "0" "0", st)
    else if opn = "ARITHMETIC_DIV" then (buildBinaryExpression stack "/" swapped "0" "0", st)
    else if opn = "ARITHMETIC_MOD" then (buildBinaryExpression stack "%" swapped "0" "0", st)
    else if opn = "COMPARISON_EQUAL" then (buildBinaryExpression stack "==" swapped "0" "0", st)
    else if opn = "COMPARISON_STRICT_EQUAL" then (buildBinaryExpression stack "===" swapped "0" "0", st)
    else if opn = "COMPARISON_NOT_EQUAL" then (buildBinaryExpression stack "!=" swapped "0" "0", st)
    else if opn = "COMPARISON_STRICT_NOT_EQUAL" then (buildBinaryExpression stack "!==" swapped "0" "0", st)
    else if opn = "COMPARISON_LESS" then (buildBinaryExpression stack "<" swapped "0" "0", st)
    else if opn = "COMPARISON_LESS_OR_EQUAL" then (buildBinaryExpression stack "<=" swapped "0" "0", st)
    else if opn = "COMPARISON_GREATER" then (buildBinaryExpression stack ">" swapped "0" "0", st)
    else if opn = "COMPARISON_GREATER_OR_EQUAL" then (buildBinaryExpression stack ">=" swapped "0" "0", st)
    else if opn = "BINARY_BIT_SHIFT_LEFT" then (buildBinaryExpression stack "<<" swapped "0" "0", st)
    else if opn = "BINARY_BIT_SHIFT_RIGHT" then (buildBinaryExpression stack ">>" swapped "0" "0", st)
    else if opn = "BINARY_UNSIGNED_BIT_SHIFT_RIGHT" then (buildBinaryExpression stack ">>>" swapped "0" "0", st)
    else if opn = "BINARY_BIT_XOR" then (buildBinaryExpression stack "^" swapped "0" "0", st)
    else if opn = "BINARY_BIT_AND" then (buildBinaryExpression stack "&" swapped "0" "0", st)
    else if opn = "BINARY_BIT_OR" then (buildBinaryExpression stack "|" swapped "0" "0", st)
    else if opn = "BINARY_IN" then
      (buildBinaryExpression stack "in" swapped "\"\"" "\x7b\x7d", st)
    else if opn = "BINARY_INSTANCEOF" then
      (buildBinaryExpression stack "instanceof" swapped "null" "Object", st)
    else if opn = "UNARY_PLUS" then (buildUnaryExpression stack "+" "0", st)
    else if opn = "UNARY_MINUS" then (buildUnaryExpression stack "-" "0", st)
    else if opn = "UNARY_NOT" then (buildUnaryExpression stack "!" "false", st)
    else if opn = "UNARY_BIT_NOT" then (buildUnaryExpression stack "~" "0", st)
    else if opn = "UNARY_TYPEOF" then
      match jsPopOr stack "undefined" with
      | (a, s1) => (s1 ++ ["(typeof " ++ a ++ ")"], st)
    else if opn = "UNARY_VOID" then
      match jsPopOr stack "undefined" with
      | (a, s1) => (s1 ++ ["(void " ++ a ++ ")"], st)
    else if opn = "UNARY_THROW" then
      match jsPopOr stack "new Error()" with
      | (a, s1) => (s1, emitThrow st a)
    else if opn = "UPDATE_PLUS" || opn = "UPDATE_MINUS" then
      match st with
      | ⟨v, o, ind, al, pr⟩ =>
        match buildUpdateExpression stack instr (opn = "UPDATE_PLUS") v with
        | (stack2, v2) => (stack2, ⟨v2, o, ind, al, pr⟩)
    else if opn = "PROP_UPDATE_PLUS" || opn = "PROP_UPDATE_MINUS" then
      match st with
      | ⟨v, o, ind, al, pr⟩ =>
        match buildPropUpdateExpression stack instr (opn = "PROP_UPDATE_PLUS") v with
        | (stack2, v2) => (stack2, ⟨v2, o, ind, al, pr⟩)
    else if opn = "COMPLEX_PROP_UPDATE_PLUS" || opn = "COMPLEX_PROP_UPDATE_MINUS" then
      (buildComplexPropUpdateExpression stack instr (opn = "COMPLEX_PROP_UPDATE_PLUS"), st)
    else if opn = "LOAD_VARIABLE" then
      match st with
      | ⟨v, o, ind, al, pr⟩ =>
        match getVarName (argNum? instr 0) (argNum? instr 1) v with
        | (varName, v2) => (stack ++ [varName], ⟨v2, o, ind, al, pr⟩)
    else if opn = "STORE_VARIABLE" then
      match jsPopOr stack "undefined" with
      | (value, s1) =>
        match st with
        | ⟨v, o, ind, al, pr⟩ =>
          match getVarName (argNum? instr 0) (argNum? instr 1) v with
          | (varName, v2) =>
            (s1, emitVariableDeclaration ⟨v2, o, ind, al, pr⟩ varName value)
    else if opn = "ASSIGN_VARIABLE" then
      match st with
      | ⟨v, o, ind, al, pr⟩ =>
        match buildAssignmentExpression stack instr v with
        | (stack2, v2) => (stack2, ⟨v2, o, ind, al, pr⟩)
    else if opn = "LOAD_GLOBAL" then (stack ++ ["globalThis"], st)
    else if opn = "LOAD_GLOBAL_PROP" then (buildGlobalPropAccess stack, st)
    else if opn = "LOAD_THIS" then (stack ++ ["this"], st)
    else if opn = "LOAD_ARGUMENT" then
      (stack ++ ["arguments[" ++ Int.repr ((argNum? instr 0).getD 0) ++ "]"], st)
    else if opn = "LOAD_ARGUMENTS" then (stack ++ ["arguments"], st)
    else if opn = "CALL_FUNCTION" then (buildFunctionCall stack (argCount instr 0), st)
    else if opn = "CALL_METHOD" then (buildMethodCall stack (argCount instr 0), st)
    else if opn = "CONSTRUCT" then (buildConstruct stack (argCount instr 0), st)
    else if opn = "GET_PROPERTY" then (buildPropertyAccess stack, st)
    else if opn = "SET_PROPERTY" then
      match jsPopOr stack "undefined" with
      | (value, s1) =>
        match jsPopOr s1 "prop" with
        | (key, s2) =>
          match jsPopOr s2 "obj" with
          | (obj, s3) =>
            (s3 ++ [obj], emitPropertyAssignment st obj key value)
    else if opn = "BUILD_ARRAY" then (buildArray stack (argCount instr 0), st)
    else if opn = "BUILD_OBJECT" then (buildObject stack (argCount instr 0), st)
    else if opn = "BUILD_FUNCTION" then
      match st with
      | ⟨⟨vc, svn⟩, o, ind, al, pr⟩ =>
        match buildFunctionBodyF fuel cfg instr ind vc with
        | (code, vc2) => (stack ++ [code], ⟨⟨vc2, svn⟩, o, ind, al, pr⟩)
    else if opn = "JUMP" then
      match generateLabel st (argNum? instr 0) with
      | (_, st2) => (stack, st2)
    else if opn = "JUMP_IF_TRUE" then
      match jsPopOr stack "true" with
      | (cond, s1) =>
        match generateLabel st (argNum? instr 0) with
        | (label, st2) => (s1, emitConditionalJump st2 cond label true)
    else if opn = "JUMP_IF_FALSE" then
      match jsPopOr stack "false" with
      | (cond, s1) =>
        match generateLabel st (argNum? instr 0) with
        | (label, st2) => (s1, emitConditionalJump st2 cond label false)
    else if opn = "RETURN" then
      if truthy (argVal? instr 0) then
        match jsPopOr stack "undefined" with
        | (value, s1) =>
          (s1, setPendingReturn st (some ("return " ++ value ++ ";")))
      else (stack, setPendingReturn st (some "return;"))
    else if opn = "DEBUGGER" then (stack, emitDebugger st)
    else if opn = "BUILD_REGEXP" then
      if (instr.args.get? 0).map JArg.type = some "has_flags" then
        match (if truthy (argVal? instr 0) then
            match popPlain stack with
            | (f, s1) => (cleanStringValue (some f), s1)
          else ("", stack)) with
        | (flags, s1) =>
          match popPlain s1 with
          | (p, s2) =>
            (s2 ++ ["/" ++ escSlash (cleanStringValue (some p)) ++ "/" ++ flags], st)
      else
        (stack ++ ["/" ++ escSlash (instr.patternValue.getD "") ++ "/" ++
          (instr.flagsValue.getD "")], st)
    else if opn = "TRY_PUSH" then (stack, emitTryStartE st)
    else if opn = "TRY_POP" then (stack, st)
    else if opn = "TRY_CATCH" then
      match st with
      | ⟨v, o, ind, al, pr⟩ =>
        match getVarName (argNum? instr 0) (argNum? instr 1) v with
        | (errVarName, v2) =>
          (stack, emitCatchStartE ⟨v2, o, ind, al, pr⟩ errVarName)
    else if opn = "TRY_FINALLY" then (stack, emitFinallyStartE st)
    else if opn = "SEQUENCE_POP" then (stack, st)
    else if strStarts opn "UNKNOWN_" || strStarts opn "OP_" then
      (stack, emitErr st ("Unknown opcode: " ++ opn))
    else (stack, st)
termination_by structural fuel => fuel

/-- `StatementEmitter.buildFunctionBody`: recursively disassemble and
decompile a nested function payload (prefixed with a 0 byte). -/
def buildFunctionBodyF : Nat → CGConfig → Instr → Int → Nat → String × Nat
  | 0, _, _, _, varCounter => ("function() \x7b\x7d", varCounter)
  | fuel + 1, cfg, instr, currentIndent, varCounter =>
    match instr.fnBody with
    | some body =>
      let subInstrs := disassemble
        { strings := cfg.strings, opcodeMap := cfg.opcodeMap } cfg.inflate (0 :: body)
      match generateF fuel
        { cfg with instructions := subInstrs, returnOpcode := none, swappedOpcodes := [] }
        varCounter (currentIndent + 1) with
      | (fnBody, vc2) =>
        let fnLines := joinSep "\n" ((splitLines fnBody).map (fun l => "  " ++ l))
        ("function() \x7b\n" ++ fnLines ++ "\n" ++ indentStr currentIndent ++ "\x7d", vc2)
    | none => ("function() \x7b\x7d", varCounter)
termination_by structural fuel => fuel

end

/-! ## C1 and C2: the binary-operator dispatch and operand order -/

theorem intRepr_ne_empty (i : Int) : Int.repr i ≠ "" := by
  intro h
  have hd := congrArg String.data h
  cases i with
  | ofNat m =>
    rw [intRepr_data] at hd
    exact natChars_ne_nil m hd
  | negSucc m =>
    rw [intRepr_data] at hd
    exact List.noConfusion hd

theorem jsPopOr_append (rest : List String) (x d : String) :
    jsPopOr (rest ++ [x]) d = (if x = "" then d else x, rest) := by
  induction rest with
  | nil => rfl
  | cons a rest ih =>
    cases rest with
    | nil => simp [jsPopOr]
    | cons b l =>
      have e : (a :: b :: l) ++ [x] = a :: (b :: (l ++ [x])) := rfl
      rw [List.cons_append] at ih
      rw [e, jsPopOr, ih]

theorem buildBinary_two (rest : List String) (first second op ld rd : String)
    (swapped : Bool) (h1 : first ≠ "") (h2 : second ≠ "") :
    buildBinaryExpression (rest ++ [second, first]) op swapped ld rd =
      rest ++ [if swapped then "(" ++ second ++ " " ++ op ++ " " ++ first ++ ")"
        else "(" ++ first ++ " " ++ op ++ " " ++ second ++ ")"] := by
  have p1 : jsPopOr (rest ++ [second, first]) ld = (first, rest ++ [second]) := by
    rw [show rest ++ [second, first] = (rest ++ [second]) ++ [first] by simp,
      jsPopOr_append, if_neg h1]
  have p2 : jsPopOr (rest ++ [second]) rd = (second, rest) := by
    rw [jsPopOr_append, if_neg h2]
  cases swapped <;> simp [buildBinaryExpression, p1, p2]

theorem buildBinary_one (x op ld rd : String) (swapped : Bool) (hx : x ≠ "") :
    buildBinaryExpression [x] op swapped ld rd =
      [if swapped then "(" ++ rd ++ " " ++ op ++ " " ++ x ++ ")"
        else "(" ++ x ++ " " ++ op ++ " " ++ rd ++ ")"] := by
  cases swapped <;> simp [buildBinaryExpression, jsPopOr, hx]

theorem buildBinary_nil (op ld rd : String) (swapped : Bool) :
    buildBinaryExpression [] op swapped ld rd =
      [if swapped then "(" ++ rd ++ " " ++ op ++ " " ++ ld ++ ")"
        else "(" ++ ld ++ " " ++ op ++ " " ++ rd ++ ")"] := by
  cases swapped <;> rfl

/-- Helper: every row of `binaryOpTable` routes `processInstruction` to
`buildBinaryExpression` with that row's operator and defaults. -/
theorem processInstrF_binop (fuel : Nat) (cfg : CGConfig) (instr : Instr)
    (stack : List String) (st : EmitState) (op ld rd : String)
    (hop : (instr.opName, op, ld, rd) ∈ binaryOpTable) :
    processInstrF (fuel + 1) cfg instr stack st =
      (buildBinaryExpression stack op
        (cfg.swappedOpcodes.contains instr.opcode) ld rd, st) := by
  simp only [binaryOpTable, List.mem_cons, List.not_mem_nil, or_false,
    Prod.mk.injEq] at hop
  rcases hop with h|h|h|h|h|h|h|h|h|h|h|h|h|h|h|h|h|h|h|h|h <;>
    obtain ⟨hn, rfl, rfl, rfl⟩ := h <;>
    simp [processInstrF, hn]

/-- A blank generator configuration for concrete instantiation (empty
program, trivial codec oracles). -/
def cfgW : CGConfig :=
  { instructions := [], strings := [], opcodeMap := [],
    inflate := fun _ => none, showDouble := fun _ => "" }

/-- A fresh emit state (varCounter 0, nothing emitted, indent 0). -/
def st0 : EmitState := ⟨⟨0, []⟩, [], 0, [], none⟩

def addInstrW : Instr :=
  { addr := 0, opcode := 8, opName := "ARITHMETIC_ADD", args := [] }

/-- C1: for every binary arithmetic, comparison, bitwise, `in` or
`instanceof` instruction, `processInstruction` pops two operands (first =
top of stack, second = next), pushes `(first OP second)` when the raw
opcode is not in `swappedOpcodes` and `(second OP first)` when it is, and
fills missing operands from that operator's defaults (`'0'`/`'0'` for
arithmetic, comparison and bitwise operators, `'""'`/`'{}'` for `in`,
`'null'`/`'Object'` for `instanceof`, the right default first when only one
operand is present). -/
theorem c1_binary_dispatch (fuel : Nat) (cfg : CGConfig) (instr : Instr)
    (st : EmitState) (op ld rd first second : String) (rest : List String)
    (hop : (instr.opName, op, ld, rd) ∈ binaryOpTable)
    (h1 : first ≠ "") (h2 : second ≠ "") :
    processInstrF (fuel + 1) cfg instr (rest ++ [second, first]) st =
      (rest ++ [if cfg.swappedOpcodes.contains instr.opcode
        then "(" ++ second ++ " " ++ op ++ " " ++ first ++ ")"
        else "(" ++ first ++ " " ++ op ++ " " ++ second ++ ")"], st) ∧
    processInstrF (fuel + 1) cfg instr [first] st =
      ([if cfg.swappedOpcodes.contains instr.opcode
        then "(" ++ rd ++ " " ++ op ++ " " ++ first ++ ")"
        else "(" ++ first ++ " " ++ op ++ " " ++ rd ++ ")"], st) ∧
    processInstrF (fuel + 1) cfg instr [] st =
      ([if cfg.swappedOpcodes.contains instr.opcode
        then "(" ++ rd ++ " " ++ op ++ " " ++ ld ++ ")"
        else "(" ++ ld ++ " " ++ op ++ " " ++ rd ++ ")"], st) := by
  refine ⟨?_, ?_, ?_⟩ <;>
    rw [processInstrF_binop fuel cfg instr _ st op ld rd hop]
  · rw [buildBinary_two rest first second op ld rd _ h1 h2]
  · rw [buildBinary_one first op ld rd _ h1]
  · rw [buildBinary_nil op ld rd]

/-- C1 witness: `ARITHMETIC_ADD` (not swapped) on the stack `["2", "3"]`
(top = `"3"`) yields `["(3 + 2)"]`. -/
theorem c1_binary_dispatch_witness :
    processInstrF 1 cfgW addInstrW ["2", "3"] st0 = (["(3 + 2)"], st0) := by
  have h := (c1_binary_dispatch 0 cfgW addInstrW st0 "+" "0" "0" "3" "2" []
    (by decide) (by decide) (by decide)).1
  exact h

def c2Instrs : List Instr :=
  [{ addr := 0, opcode := 1, opName := "STACK_PUSH_DWORD",
     args := [{ type := "dword", value := .num 2 }] },
   { addr := 5, opcode := 1, opName := "STACK_PUSH_DWORD",
     args := [{ type := "dword", value := .num 3 }] },
   { addr := 10, opcode := 8, opName := "ARITHMETIC_ADD", args := [] },
   { addr := 11, opcode := 50, opName := "RETURN",
     args := [{ type := "has_value", value := .num 1 }] }]

def cfgC2 : CGConfig :=
  { instructions := c2Instrs, strings := [], opcodeMap := [],
    inflate := fun _ => none, showDouble := fun _ => "" }

set_option maxRecDepth 100000 in
set_option maxHeartbeats 1000000 in
/-- C2 (as stated) is false on its concrete example: lifting
`PUSH_INT 2; PUSH_INT 3; ADD; RETURN(true)` produces `return (3 + 2);`
(the first pop is the top of the stack, i.e. the *second* push), not
`return (2 + 3);`. -/
theorem c2_counterexample :
    (generateF 64 cfgC2 0 0).1 = "return (3 + 2);" ∧
      "return (3 + 2);" ≠ "return (2 + 3);" :=
  ⟨by rfl, by decide⟩

def pushDwordInstr (a : Nat) (n : Int) : Instr :=
  { addr := a, opcode := 1, opName := "STACK_PUSH_DWORD",
    args := [{ type := "dword", value := .num n }] }

def binOpInstr (a opc : Nat) (name : String) : Instr :=
  { addr := a, opcode := opc, opName := name, args := [] }

/-- C2 amended: lifting two pushes of `L` then `R` followed by a binary
opcode `OP` pushes `(R OP L)` when the raw opcode is *not* in
`swappedOpcodes` and `(L OP R)` when it is (the first pop is the most
recent push). -/
theorem c2_lift_order (fuel : Nat) (cfg : CGConfig) (st : EmitState)
    (L R : Int) (a0 a1 a2 opc : Nat) (name op ld rd : String)
    (hop : (name, op, ld, rd) ∈ binaryOpTable) :
    processInstrF (fuel + 1) cfg (pushDwordInstr a0 L) [] st = ([Int.repr L], st) ∧
    processInstrF (fuel + 1) cfg (pushDwordInstr a1 R) [Int.repr L] st =
      ([Int.repr L, Int.repr R], st) ∧
    processInstrF (fuel + 1) cfg (binOpInstr a2 opc name) [Int.repr L, Int.repr R] st =
      ([if cfg.swappedOpcodes.contains opc
        then "(" ++ Int.repr L ++ " " ++ op ++ " " ++ Int.repr R ++ ")"
        else "(" ++ Int.repr R ++ " " ++ op ++ " " ++ Int.repr L ++ ")"], st) := by
  refine ⟨?_, ?_, ?_⟩
  · simp [processInstrF, pushDwordInstr, formatNumber, argVal?, jvalString]
  · simp [processInstrF, pushDwordInstr, formatNumber, argVal?, jvalString]
  · rw [processInstrF_binop fuel cfg _ _ st op ld rd hop]
    have e : [Int.repr L, Int.repr R] = ([] : List String) ++ [Int.repr L, Int.repr R] := rfl
    rw [e, buildBinary_two [] (Int.repr R) (Int.repr L) op ld rd _
      (intRepr_ne_empty R) (intRepr_ne_empty L)]
    rfl

/-- C2 amended witness: `L = 2`, `R = 3`, `ARITHMETIC_ADD` (opcode 8, not
swapped in the blank configuration) yields `(3 + 2)`. -/
theorem c2_lift_order_witness :
    processInstrF 1 cfgW (pushDwordInstr 0 2) [] st0 = (["2"], st0) ∧
    processInstrF 1 cfgW (pushDwordInstr 5 3) ["2"] st0 = (["2", "3"], st0) ∧
    processInstrF 1 cfgW (binOpInstr 10 8 "ARITHMETIC_ADD") ["2", "3"] st0 =
      (["(3 + 2)"], st0) :=
  c2_lift_order 0 cfgW st0 2 3 0 5 10 8 "ARITHMETIC_ADD" "+" "0" "0" (by decide)

end NVM
